import Mathlib

/-!
Verification development for the multiplayer snake game server (`server.ts`).

The server-side simulation core is shallowly embedded: the entity model
(players, snakes, fruits), the fruit economy, the AI navigation engine,
the per-tick simulation step, and the population/loop scheduler.

Conventions of the embedding:
* JavaScript objects keyed by player id (`players`) become insertion-ordered
  association lists `List (PlayerId × Player)`; `for (const id in players)`
  iteration order is the list order.
* `Math.random()`-derived values are supplied by an `Oracle`: a stream of
  grid positions (`getRandomPosition` results), a stream of coin flips
  (the `Math.random() < 0.25` draws of the death conversion), and a stream
  of fresh AI identifiers.  Stream indices are threaded explicitly.
* `setTimeout`-scheduled fruit spawns are modelled by a `pendingSpawns`
  counter: `spawnFruit` performs its synchronous cap check and increments
  the counter; `spawnFruitFire` is the body of the scheduled callback.
* The `setInterval` game-loop handle becomes the Boolean `loopRunning`.
* Cosmetic fields (`color`, `designStyle`) are opaque to the simulation
  core and are omitted from the model.
-/

namespace Snake

/-- `interface Point { x: number; y: number }`.  Coordinates are integers;
they may temporarily be negative (tail segments of a snake spawned near the
left/top edge, or a candidate head that is about to be rejected as a wall
collision). -/
structure Point where
  x : Int
  y : Int
deriving DecidableEq, Repr

/-- `type Direction = "UP" | "DOWN" | "LEFT" | "RIGHT"`. -/
inductive Direction where
  | UP
  | DOWN
  | LEFT
  | RIGHT
deriving DecidableEq, Repr

open Direction

abbrev PlayerId := String

/-- `interface Player` (cosmetic fields omitted). -/
structure Player where
  snake : List Point
  direction : Direction
  score : Nat
  directionQueue : List Direction
  isAI : Bool
deriving DecidableEq, Repr

-- Game configuration constants.
def GRID_WIDTH : Int := 96
def GRID_HEIGHT : Int := 54
def INITIAL_SNAKE_LENGTH : Nat := 3
def INITIAL_FRUIT_COUNT : Nat := 20

/-- The number of cells of the grid, as a natural number. -/
def GRID_CELLS : Nat := 96 * 54

/-- Randomness / environment oracle: successive results of
`getRandomPosition()`, of the `Math.random() < 0.25` coin flips, and of the
generated AI player ids. -/
structure Oracle where
  pos : Nat → Point
  coin : Nat → Bool
  freshId : Nat → PlayerId

/-- Full server state outside a running tick. -/
structure ServerState where
  players : List (PlayerId × Player)
  fruits : List Point
  pendingSpawns : Nat
  loopRunning : Bool
deriving Repr

-- Association-list primitives for the `players` object.

/-- `players[id]` (read). -/
def lookupPlayer (players : List (PlayerId × Player)) (id : PlayerId) :
    Option Player :=
  (players.find? (fun pr => pr.1 == id)).map (·.2)

/-- In-place update of the value stored at an existing key
(`players[id].field = ...` / `players[id] = ...` for a present key). -/
def updatePlayer (players : List (PlayerId × Player)) (id : PlayerId)
    (f : Player → Player) : List (PlayerId × Player) :=
  players.map (fun pr => if pr.1 == id then (pr.1, f pr.2) else pr)

/-- `players[id] = p`: overwrite when the key is present, append otherwise
(JavaScript object insertion order). -/
def insertPlayer (players : List (PlayerId × Player)) (id : PlayerId)
    (p : Player) : List (PlayerId × Player) :=
  if players.any (fun pr => pr.1 == id) then
    updatePlayer players id (fun _ => p)
  else
    players ++ [(id, p)]

-- Utility functions.

/-- `pointsEqual` helper. -/
def pointsEqual (a b : Point) : Bool :=
  a.x == b.x && a.y == b.y

/-- `isPositionOccupied`: is the point on any snake segment of any player?
(The inline occupancy checks of `calculateAIMove` and
`countAccessibleSpaces` test exactly the same condition.) -/
def isPositionOccupied (players : List (PlayerId × Player)) (pos : Point) :
    Bool :=
  players.any (fun pr => pr.2.snake.any (fun seg => pointsEqual seg pos))

/-- The wall test used by the game loop and the AI safety filter:
`x < 0 || x >= GRID_WIDTH || y < 0 || y >= GRID_HEIGHT`. -/
def wallHit (p : Point) : Bool :=
  p.x < 0 || GRID_WIDTH ≤ p.x || p.y < 0 || GRID_HEIGHT ≤ p.y

/-- Propositional in-grid predicate `[0, width) × [0, height)`. -/
def inGrid (p : Point) : Prop :=
  0 ≤ p.x ∧ p.x < GRID_WIDTH ∧ 0 ≤ p.y ∧ p.y < GRID_HEIGHT

instance (p : Point) : Decidable (inGrid p) := by
  unfold inGrid; infer_instance

/-- Retry loop of `getSafeSpawnPosition`: while the sampled point is
occupied and fewer than 100 retries have happened, sample again.  `fuel` is
the number of remaining retries; `k` indexes the oracle position stream. -/
def getSafeSpawnLoop (players : List (PlayerId × Player)) (o : Oracle)
    (pos : Point) (k : Nat) : Nat → Point × Nat
  | 0 => (pos, k)
  | fuel + 1 =>
    if isPositionOccupied players pos then
      getSafeSpawnLoop players o (o.pos k) (k + 1) fuel
    else
      (pos, k)

/-- `getSafeSpawnPosition`: sample a random point, retry while occupied
(at most 100 retries), and return the last sample together with the next
position-stream index. -/
def getSafeSpawnPosition (players : List (PlayerId × Player)) (o : Oracle)
    (k : Nat) : Point × Nat :=
  getSafeSpawnLoop players o (o.pos k) (k + 1) 100

/-- `createSnake(start, direction)`: a body of length
`INITIAL_SNAKE_LENGTH` whose head is `start`, extended opposite to
`direction` (no bounds check: tail segments may lie off-grid). -/
def createSnake (start : Point) (direction : Direction) : List Point :=
  start :: (List.range' 1 (INITIAL_SNAKE_LENGTH - 1)).map (fun i =>
    match direction with
    | RIGHT => ⟨start.x - i, start.y⟩
    | LEFT => ⟨start.x + i, start.y⟩
    | DOWN => ⟨start.x, start.y - i⟩
    | UP => ⟨start.x, start.y + i⟩)

/-- Synchronous part of `spawnFruit()`: decline when the fruit count has
reached the hard cap `INITIAL_FRUIT_COUNT * 3`, otherwise schedule one
delayed spawn (`setTimeout`), modelled by incrementing `pendingSpawns`. -/
def spawnFruit (s : ServerState) : ServerState :=
  if INITIAL_FRUIT_COUNT * 3 ≤ s.fruits.length then s
  else { s with pendingSpawns := s.pendingSpawns + 1 }

/-- Replenishment loop inside the scheduled spawn callback:
`while (fruits.length < playerCount) fruits.push(getRandomPosition())`.
`fuel` bounds the iterations (the count grows by one per iteration). -/
def replenishLoop (playerCount : Nat) (o : Oracle) :
    List Point → Nat → Nat → List Point × Nat
  | fruits, k, 0 => (fruits, k)
  | fruits, k, fuel + 1 =>
    if fruits.length < playerCount then
      replenishLoop playerCount o (fruits ++ [o.pos k]) (k + 1) fuel
    else
      (fruits, k)

/-- Body of the `setTimeout` callback of `spawnFruit()`: push one random
fruit, then replenish the fruit count up to the current player count. -/
def spawnFruitFire (s : ServerState) (o : Oracle) (k : Nat) :
    ServerState × Nat :=
  let fruits1 := s.fruits ++ [o.pos k]
  let (fruits2, k') :=
    replenishLoop s.players.length o fruits1 (k + 1) s.players.length
  ({ s with
      fruits := fruits2
      pendingSpawns := s.pendingSpawns - 1 }, k')

/-- `isOpposite`: exact reversal of direction. -/
def isOpposite (d1 d2 : Direction) : Bool :=
  (d1 == UP && d2 == DOWN) || (d1 == DOWN && d2 == UP) ||
  (d1 == LEFT && d2 == RIGHT) || (d1 == RIGHT && d2 == LEFT)

/-- `manhattanDistance`. -/
def manhattanDistance (a b : Point) : Nat :=
  ((a.x - b.x).natAbs + (a.y - b.y).natAbs)

/-- One axis-aligned unit step in a direction (the `switch` used both for
`nextPositions` in the AI and for the head advance of the game loop). -/
def dirStep (head : Point) : Direction → Point
  | UP => ⟨head.x, head.y - 1⟩
  | DOWN => ⟨head.x, head.y + 1⟩
  | LEFT => ⟨head.x - 1, head.y⟩
  | RIGHT => ⟨head.x + 1, head.y⟩

/-- `findClosestFruit`: first fruit (in list order) of minimal Manhattan
distance from `p`, or `none` when there are no fruits. -/
def findClosestFruit (p : Point) (fruits : List Point) : Option Point :=
  (fruits.foldl (fun acc fruit =>
    match acc with
    | none => some (fruit, manhattanDistance p fruit)
    | some best =>
      if manhattanDistance p fruit < best.2 then
        some (fruit, manhattanDistance p fruit)
      else acc) none).map (·.1)

/-- The four neighbour cells explored by the flood fill, in source order
(up, down, left, right). -/
def neighborsOf (c : Point) : List Point :=
  [⟨c.x, c.y - 1⟩, ⟨c.x, c.y + 1⟩, ⟨c.x - 1, c.y⟩, ⟨c.x + 1, c.y⟩]

/-- One dequeue step of `countAccessibleSpaces`: push every unvisited,
in-grid, unoccupied neighbour.  Returns updated (visited, queue). -/
def bfsExpand (players : List (PlayerId × Player))
    (visited : List Point) (queue : List Point) (current : Point) :
    List Point × List Point :=
  (neighborsOf current).foldl (fun vq nb =>
    if vq.1.any (fun v => pointsEqual v nb) then vq
    else if wallHit nb then vq
    else if isPositionOccupied players nb then vq
    else (nb :: vq.1, vq.2 ++ [nb])) (visited, queue)

/-- The `while (queue.length > 0 && count < maxExplore)` loop of
`countAccessibleSpaces`; `fuel` is `maxExplore - count`. -/
def bfsLoop (players : List (PlayerId × Player)) :
    List Point → List Point → Nat → Nat → Nat
  | _, _, count, 0 => count
  | visited, queue, count, fuel + 1 =>
    match queue with
    | [] => count
    | current :: rest =>
      let vq := bfsExpand players visited rest current
      bfsLoop players vq.1 vq.2 (count + 1) fuel

/-- `countAccessibleSpaces(start, snakeBody)`: breadth-first flood fill
from `start`, seeded with the given snake body as visited, counting
dequeued cells, capped at the exploration budget 100. -/
def countAccessibleSpaces (players : List (PlayerId × Player))
    (start : Point) (snakeBody : List Point) : Nat :=
  bfsLoop players (snakeBody ++ [start]) [start] 0 100

/-- Stable descending insertion (by score) used to model the JavaScript
stable `sort((a, b) => b.score - a.score)`.  An element is inserted after
every earlier element of strictly greater **or equal** score, keeping the
original order of equal scores. -/
def insertDesc (x : Direction × Nat) :
    List (Direction × Nat) → List (Direction × Nat)
  | [] => [x]
  | y :: ys => if x.2 < y.2 then y :: insertDesc x ys else x :: y :: ys

/-- Stable descending sort by score. -/
def sortDesc : List (Direction × Nat) → List (Direction × Nat)
  | [] => []
  | x :: xs => insertDesc x (sortDesc xs)

/-- `calculateAIMove(playerId)`: the AI decision function, translated
from the source. -/
def calculateAIMove (players : List (PlayerId × Player))
    (fruits : List Point) (playerId : PlayerId) : Direction :=
  match lookupPlayer players playerId with
  | none => RIGHT
  | some player =>
    let head := player.snake.headD ⟨0, 0⟩
    let currentDirection := player.direction
    let availableDirections :=
      [UP, DOWN, LEFT, RIGHT].filter (fun dir => !isOpposite currentDirection dir)
    let safeDirections := availableDirections.filter (fun dir =>
      let pos := dirStep head dir
      !wallHit pos && !isPositionOccupied players pos)
    if safeDirections.isEmpty then currentDirection
    else
      let directionScores := safeDirections.map (fun dir =>
        let pos := dirStep head dir
        let base := countAccessibleSpaces players pos player.snake
        let bonus :=
          match findClosestFruit head fruits with
          | none => 0
          | some closestFruit =>
            if manhattanDistance pos closestFruit <
                manhattanDistance head closestFruit then 5 else 0
        (dir, base + bonus))
      ((sortDesc directionScores).headD (currentDirection, 0)).1

-- The per-tick simulation step (`gameLoop`).

/-- Mutable state threaded through one invocation of `gameLoop`:
the players map and fruit list under mutation, the pending spawn counter,
the `newHeadPositions` record (in insertion order), and the oracle stream
indices for positions and coin flips. -/
structure TickState where
  players : List (PlayerId × Player)
  fruits : List Point
  pendingSpawns : Nat
  headPositions : List (PlayerId × Point)
  posIdx : Nat
  coinIdx : Nat
deriving Repr

/-- Death conversion (`for (const segment of snake) if (Math.random() <
0.25) if (!fruits.some(... segment)) fruits.push(segment)`): one coin flip
is consumed per segment; a segment becomes a fruit only when no fruit
already occupies its cell. -/
def convertBody (o : Oracle) (fruits : List Point) (body : List Point)
    (c : Nat) : List Point × Nat :=
  body.foldl (fun acc segment =>
    if o.coin acc.2 then
      if acc.1.any (fun fruit => pointsEqual fruit segment) then
        (acc.1, acc.2 + 1)
      else
        (acc.1 ++ [segment], acc.2 + 1)
    else
      (acc.1, acc.2 + 1)) (fruits, c)

/-- Respawn of the player stored at `pid` (used both for the player being
processed and, in the head-to-head case, for the earlier-processed
victim): convert its current body into fruits with probability 0.25 per
segment, pick a safe spawn position, and replace the player with a fresh
snake heading `RIGHT` and score 0. -/
def respawnPlayer (o : Oracle) (st : TickState) (pid : PlayerId) :
    TickState :=
  match lookupPlayer st.players pid with
  | none => st
  | some p =>
    let fc := convertBody o st.fruits p.snake st.coinIdx
    let pk := getSafeSpawnPosition st.players o st.posIdx
    { st with
        fruits := fc.1
        coinIdx := fc.2
        posIdx := pk.2
        players := updatePlayer st.players pid (fun q =>
          { q with
              direction := RIGHT
              snake := createSnake pk.1 RIGHT
              score := 0 }) }

/-- The scan of `newHeadPositions` in the game loop: the first entry of a
*different* player whose recorded new head equals `newHead`. -/
def findH2H (entries : List (PlayerId × Point)) (id : PlayerId)
    (newHead : Point) : Option PlayerId :=
  (entries.find? (fun e => e.1 != id && pointsEqual e.2 newHead)).map (·.1)

/-- The direction the player will move in this tick: the front of the
direction queue if any, else the current direction (the game loop shifts
the queue before stepping). -/
def effectiveDirection (p : Player) : Direction :=
  match p.directionQueue with
  | [] => p.direction
  | d :: _ => d

/-- The head position computed for this tick (`player.snake[0]` advanced
one step in the effective direction). -/
def newHeadOf (p : Player) : Point :=
  dirStep (p.snake.headD ⟨0, 0⟩) (effectiveDirection p)

/-- Was the new head on some pre-tick snake segment? (`currentSnakes`
check of the game loop.) -/
def hitsSnapshot (snapshot : List (PlayerId × List Point))
    (newHead : Point) : Bool :=
  snapshot.any (fun pr => pr.2.any (fun segment => pointsEqual segment newHead))

/-- Process one player inside `gameLoop`: shift the queue, advance the
head, resolve wall / body / head-to-head collisions (retroactively
respawning the head-to-head victim), and on survival commit the new head,
eat a fruit if present (scheduling a replacement spawn) and move. -/
def processPlayer (snapshot : List (PlayerId × List Point)) (o : Oracle)
    (st : TickState) (id : PlayerId) : TickState :=
  match lookupPlayer st.players id with
  | none => st
  | some player =>
    let dir := effectiveDirection player
    let newHead := newHeadOf player
    let st1 := { st with
      players := updatePlayer st.players id (fun q =>
        { q with direction := dir, directionQueue := q.directionQueue.tail }) }
    if wallHit newHead then
      respawnPlayer o st1 id
    else
      let victim := findH2H st1.headPositions id newHead
      let st2 :=
        match victim with
        | some otherId => respawnPlayer o st1 otherId
        | none => st1
      if hitsSnapshot snapshot newHead || victim.isSome then
        respawnPlayer o st2 id
      else
        let st3 := { st2 with
          headPositions := st2.headPositions ++ [(id, newHead)] }
        match st3.fruits.findIdx? (fun fruit => pointsEqual fruit newHead) with
        | some i =>
          let st4 := { st3 with
            fruits := st3.fruits.eraseIdx i
            players := updatePlayer st3.players id (fun q =>
              { q with score := q.score + 1, snake := newHead :: q.snake }) }
          -- `spawnFruit()` call (synchronous cap check, then schedule).
          if INITIAL_FRUIT_COUNT * 3 ≤ st4.fruits.length then st4
          else { st4 with pendingSpawns := st4.pendingSpawns + 1 }
        | none =>
          { st3 with
            players := updatePlayer st3.players id (fun q =>
              { q with snake := newHead :: q.snake.dropLast }) }

/-- One step of the AI phase: if the player is an AI, overwrite its
direction queue with the single AI-computed heading. -/
def aiStep (fruits : List Point) (ps : List (PlayerId × Player))
    (id : PlayerId) : List (PlayerId × Player) :=
  match lookupPlayer ps id with
  | none => ps
  | some p =>
    if p.isAI then
      updatePlayer ps id (fun q =>
        { q with directionQueue := [calculateAIMove ps fruits id] })
    else ps

/-- Phase 1 of `gameLoop`: for every AI player, overwrite its direction
queue with the single AI-computed heading.  Each decision sees the map as
updated so far (only queues differ, which the decision does not read). -/
def updateAIDirections (players : List (PlayerId × Player))
    (fruits : List Point) : List (PlayerId × Player) :=
  (players.map (·.1)).foldl (aiStep fruits) players

/-- One invocation of `gameLoop` (minus the snapshot broadcast, which does
not mutate the world): AI phase, pre-tick snapshot, then every player is
processed in map order.  Returns the new server state together with the
advanced oracle stream indices. -/
def gameLoopTick (s : ServerState) (o : Oracle) (posIdx coinIdx : Nat) :
    ServerState × Nat × Nat :=
  let players0 := updateAIDirections s.players s.fruits
  let snapshot := players0.map (fun pr => (pr.1, pr.2.snake))
  let st0 : TickState :=
    { players := players0
      fruits := s.fruits
      pendingSpawns := s.pendingSpawns
      headPositions := []
      posIdx := posIdx
      coinIdx := coinIdx }
  let st := (players0.map (·.1)).foldl (processPlayer snapshot o) st0
  ({ s with
      players := st.players
      fruits := st.fruits
      pendingSpawns := st.pendingSpawns }, st.posIdx, st.coinIdx)

-- Socket handlers and the scheduler.

/-- The `changeDirection` socket handler: ignore unknown players; compare
against the most recently queued (else current) heading; silently drop an
exact reversal, otherwise append to the queue. -/
def changeDirection (players : List (PlayerId × Player)) (id : PlayerId)
    (newDirection : Direction) : List (PlayerId × Player) :=
  match lookupPlayer players id with
  | none => players
  | some p =>
    let precedingDirection :=
      match p.directionQueue.getLast? with
      | some d => d
      | none => p.direction
    if isOpposite precedingDirection newDirection then players
    else
      updatePlayer players id (fun q =>
        { q with directionQueue := q.directionQueue ++ [newDirection] })

/-- Number of human (non-AI) players. -/
def humanCount (players : List (PlayerId × Player)) : Nat :=
  (players.filter (fun pr => !pr.2.isAI)).length

/-- Number of AI players. -/
def aiCount (players : List (PlayerId × Player)) : Nat :=
  (players.filter (fun pr => pr.2.isAI)).length

/-- The AI target count table of `manageAIPlayers`. -/
def targetAICount (humans : Nat) : Nat :=
  if humans = 1 then 3
  else if humans = 2 then 2
  else if humans = 3 then 1
  else 0

/-- `addAIPlayer()`: a fresh id from the oracle, a safe spawn position,
and a new AI player entry. -/
def addAIPlayer (o : Oracle) (s : ServerState) (posIdx idIdx : Nat) :
    ServerState × Nat × Nat :=
  let aiId := o.freshId idIdx
  let pk := getSafeSpawnPosition s.players o posIdx
  ({ s with
      players := insertPlayer s.players aiId
        { snake := createSnake pk.1 RIGHT
          direction := RIGHT
          score := 0
          directionQueue := []
          isAI := true } }, pk.2, idIdx + 1)

/-- The `for (let i = 0; i < targetAICount - aiCount; i++) addAIPlayer()`
loop. -/
def addAIPlayers (o : Oracle) : Nat → ServerState × Nat × Nat →
    ServerState × Nat × Nat
  | 0, acc => acc
  | n + 1, (s, k, j) => addAIPlayers o n (addAIPlayer o s k j)

/-- `manageAIPlayers()`: create AI players up to the target count; when
above target, deliberately remove nothing (excess AI play out until they
die). -/
def manageAIPlayers (o : Oracle) (s : ServerState) (posIdx idIdx : Nat) :
    ServerState × Nat × Nat :=
  let target := targetAICount (humanCount s.players)
  if aiCount s.players < target then
    addAIPlayers o (target - aiCount s.players) (s, posIdx, idIdx)
  else
    (s, posIdx, idIdx)

/-- `manageGameLoop()`: start the interval when a human is present and no
interval runs; when no humans remain and the interval runs, stop it and
purge all AI players. -/
def manageGameLoop (s : ServerState) : ServerState :=
  if 0 < humanCount s.players ∧ s.loopRunning = false then
    { s with loopRunning := true }
  else if humanCount s.players = 0 ∧ s.loopRunning = true then
    { s with
        loopRunning := false
        players := s.players.filter (fun pr => !pr.2.isAI) }
  else s

-- Spec-side definitions (written from the specification's words, for the
-- refinement statements; each is compared against the source translation
-- above).

/-- Modelled from the spec: the "exact reverse" of a heading (§4.3 step 1,
§6 `changeDirection`). -/
def reverseDir : Direction → Direction
  | UP => DOWN
  | DOWN => UP
  | LEFT => RIGHT
  | RIGHT => LEFT

/-- One step of the first-argmax fold: keep the incumbent unless the new
candidate scores strictly higher. -/
def argStep (acc : Option (Direction × Nat)) (x : Direction × Nat) :
    Option (Direction × Nat) :=
  match acc with
  | none => some x
  | some b => if b.2 < x.2 then some x else acc

/-- Modelled from the spec: "choose the candidate with the highest score;
ties broken by the order directions were enumerated" — the first element
attaining the maximal score. -/
def firstArgmax (l : List (Direction × Nat)) : Option (Direction × Nat) :=
  l.foldl argStep none

/-- Modelled from the spec (§4.3): candidate headings are the four axis
directions except the exact reverse of the current heading; discard
candidates whose next head is off-grid or on any snake segment; score the
survivors as flood-fill reachable space plus a +5 bonus for strictly
decreasing the Manhattan distance to the nearest fruit; pick the first
highest-scoring candidate, falling back to the current heading when no
candidate is safe. -/
def specAIMove (players : List (PlayerId × Player)) (fruits : List Point)
    (playerId : PlayerId) : Direction :=
  match lookupPlayer players playerId with
  | none => RIGHT
  | some player =>
    let head := player.snake.headD ⟨0, 0⟩
    let candidates :=
      [UP, DOWN, LEFT, RIGHT].filter
        (fun dir => dir ≠ reverseDir player.direction)
    let safe := candidates.filter (fun dir =>
      decide (inGrid (dirStep head dir)) &&
      !isPositionOccupied players (dirStep head dir))
    let scored := safe.map (fun dir =>
      let pos := dirStep head dir
      let bonus :=
        match findClosestFruit head fruits with
        | none => 0
        | some closestFruit =>
          if manhattanDistance pos closestFruit <
              manhattanDistance head closestFruit then 5 else 0
      (dir, countAccessibleSpaces players pos player.snake + bonus))
    match firstArgmax scored with
    | none => player.direction
    | some best => best.1

-- Basic lemmas about the embedding's primitives.

theorem pointsEqual_iff {a b : Point} : pointsEqual a b = true ↔ a = b := by
  cases a; cases b
  simp [pointsEqual, Point.mk.injEq]

theorem pointsEqual_eq_decide (a b : Point) :
    pointsEqual a b = decide (a = b) := by
  by_cases h : a = b
  · subst h
    simp [pointsEqual_iff.mpr rfl]
  · simp only [h, decide_False]
    cases hp : pointsEqual a b
    · rfl
    · exact absurd (pointsEqual_iff.mp hp) h

theorem isOpposite_eq_decide (d1 d2 : Direction) :
    isOpposite d1 d2 = decide (d2 = reverseDir d1) := by
  cases d1 <;> cases d2 <;> rfl

theorem wallHit_false_iff {p : Point} : wallHit p = false ↔ inGrid p := by
  simp only [wallHit, inGrid, Bool.or_eq_false_iff, decide_eq_false_iff_not,
    not_lt, not_le]
  omega

theorem not_wallHit_eq_decide (p : Point) :
    (!wallHit p) = decide (inGrid p) := by
  by_cases h : inGrid p
  · simp [h, wallHit_false_iff.mpr h]
  · simp only [h, decide_False]
    cases hw : wallHit p
    · exact absurd (wallHit_false_iff.mp hw) h
    · rfl

theorem updatePlayer_find?_comp (ps : List (PlayerId × Player))
    (id id' : PlayerId) (f : Player → Player) :
    (updatePlayer ps id f).find? (fun pr => pr.1 == id') =
      (ps.find? (fun pr => pr.1 == id')).map
        (fun pr => if pr.1 == id then (pr.1, f pr.2) else pr) := by
  unfold updatePlayer
  rw [List.find?_map]
  have hp : ((fun pr => pr.1 == id') ∘ fun (pr : PlayerId × Player) =>
      if pr.1 == id then (pr.1, f pr.2) else pr) =
      (fun pr => pr.1 == id') := by
    funext pr
    by_cases hk : pr.1 = id <;> simp [hk]
  rw [hp]

theorem lookupPlayer_updatePlayer_self (ps : List (PlayerId × Player))
    (id : PlayerId) (f : Player → Player) :
    lookupPlayer (updatePlayer ps id f) id = (lookupPlayer ps id).map f := by
  unfold lookupPlayer
  rw [updatePlayer_find?_comp]
  cases hf : (ps.find? fun pr => pr.1 == id) with
  | none => rfl
  | some pr =>
    have hkey := List.find?_some hf
    simp only [] at hkey
    have h1 : pr.1 = id := by simpa using hkey
    simp [h1]

theorem lookupPlayer_updatePlayer_other (ps : List (PlayerId × Player))
    (id id' : PlayerId) (f : Player → Player) (h : id' ≠ id) :
    lookupPlayer (updatePlayer ps id f) id' = lookupPlayer ps id' := by
  unfold lookupPlayer
  rw [updatePlayer_find?_comp]
  cases hf : (ps.find? fun pr => pr.1 == id') with
  | none => rfl
  | some pr =>
    have hkey := List.find?_some hf
    simp only [] at hkey
    have hne : pr.1 ≠ id := by
      have h1 : pr.1 = id' := by simpa using hkey
      rw [h1]
      exact h
    simp [hne]

theorem updatePlayer_keys (ps : List (PlayerId × Player)) (id : PlayerId)
    (f : Player → Player) :
    (updatePlayer ps id f).map (·.1) = ps.map (·.1) := by
  unfold updatePlayer
  rw [List.map_map]
  apply List.map_congr_left
  intro pr _
  by_cases hk : pr.1 = id <;> simp [hk]

-- Concrete fixtures used by witness theorems.

/-- Witness oracle: constant position `(0,0)`, coin always true, decimal
fresh ids. -/
def oW : Oracle :=
  { pos := fun _ => ⟨0, 0⟩
    coin := fun _ => true
    freshId := fun n => toString n }

/-- Witness human player at `(5,5)` heading RIGHT. -/
def pW : Player :=
  { snake := [⟨5, 5⟩, ⟨4, 5⟩, ⟨3, 5⟩]
    direction := Direction.RIGHT
    score := 0
    directionQueue := []
    isAI := false }

/-- Witness server state: one human player, no fruits. -/
def sW : ServerState :=
  { players := [("a", pW)]
    fruits := []
    pendingSpawns := 0
    loopRunning := true }

/-- Witness server state: one AI player, no humans, loop running. -/
def sAI : ServerState :=
  { players := [("x", { pW with isAI := true })]
    fruits := []
    pendingSpawns := 0
    loopRunning := true }

theorem updatePlayer_headPos_irrelevant (ps : List (PlayerId × Player))
    (id : PlayerId) (f : Player → Player)
    (hf : ∀ q, (f q).snake = q.snake) (x : PlayerId) :
    (lookupPlayer (updatePlayer ps id f) x).map (·.snake) =
      (lookupPlayer ps x).map (·.snake) := by
  by_cases h : x = id
  · subst h
    rw [lookupPlayer_updatePlayer_self]
    cases lookupPlayer ps x <;> simp [hf]
  · rw [lookupPlayer_updatePlayer_other _ _ _ _ h]

-- C6: the changeDirection handler.

/-- C6: a `changeDirection(heading)` request appends the heading to the
player's direction queue exactly when it is not the exact reverse of the
most recently queued heading (or of the current heading when the queue is
empty); a reversing request leaves everything unchanged, and a request for
an absent player id has no effect.  The right-hand side is the spec's
description of the handler; the left-hand side is the source translation. -/
theorem changeDirection_appends_iff_not_reverse :
    ∀ (players : List (PlayerId × Player)) (id : PlayerId) (d : Direction),
    changeDirection players id d =
      match lookupPlayer players id with
      | none => players
      | some p =>
        if d = reverseDir ((p.directionQueue.getLast?).getD p.direction) then
          players
        else
          updatePlayer players id (fun q =>
            { q with directionQueue := q.directionQueue ++ [d] }) := by
  intro players id d
  unfold changeDirection
  cases h : lookupPlayer players id with
  | none => rfl
  | some p =>
    dsimp only
    cases hq : p.directionQueue.getLast? with
    | none =>
      simp only [hq, Option.getD_none]
      rw [isOpposite_eq_decide]
      simp only [decide_eq_true_eq]
    | some d0 =>
      simp only [hq, Option.getD_some]
      rw [isOpposite_eq_decide]
      simp only [decide_eq_true_eq]

-- C7: the fruit economy's spawn cap and replenishment.

theorem replenishLoop_length_ge (pc : Nat) (o : Oracle) :
    ∀ (fuel : Nat) (fruits : List Point) (k : Nat),
    pc ≤ fuel + fruits.length →
    pc ≤ ((replenishLoop pc o fruits k fuel).1).length := by
  intro fuel
  induction fuel with
  | zero =>
    intro fruits k h
    simpa [replenishLoop] using h
  | succ n ih =>
    intro fruits k h
    unfold replenishLoop
    by_cases hlt : fruits.length < pc
    · simp only [hlt, if_true]
      apply ih
      simp only [List.length_append, List.length_cons, List.length_nil]
      omega
    · simp only [hlt, if_false]
      omega

/-- C7: `spawnFruit` schedules a spawn only when the fruit count does not
already exceed the hard cap `3 × INITIAL_FRUIT_COUNT`, and the
replenishment loop of the scheduled spawn callback guarantees that the
fruit count is at least the current player count afterwards. -/
theorem spawnFruit_cap_and_replenish :
    ∀ (s : ServerState) (o : Oracle) (k : Nat),
    ((spawnFruit s).pendingSpawns ≠ s.pendingSpawns →
      s.fruits.length ≤ INITIAL_FRUIT_COUNT * 3)
    ∧ s.players.length ≤ ((spawnFruitFire s o k).1).fruits.length := by
  intro s o k
  constructor
  · intro hne
    unfold spawnFruit at hne
    by_cases hc : INITIAL_FRUIT_COUNT * 3 ≤ s.fruits.length
    · simp [hc] at hne
    · omega
  · unfold spawnFruitFire
    apply replenishLoop_length_ge
    simp only [List.length_append, List.length_cons, List.length_nil]
    omega

/-- Witness for C7 at a concrete state. -/
theorem spawnFruit_cap_and_replenish_witness :
    sW.fruits.length ≤ INITIAL_FRUIT_COUNT * 3
    ∧ sW.players.length ≤ ((spawnFruitFire sW oW 0).1).fruits.length :=
  ⟨(spawnFruit_cap_and_replenish sW oW 0).1 (by decide),
   (spawnFruit_cap_and_replenish sW oW 0).2⟩

-- C9: the loop scheduler.

/-- C9: after a `manageGameLoop` call (the scheduler invoked by every
connect/disconnect handler), the tick timer exists if and only if at least
one human player is connected; the call never changes the human count; at
the teardown transition (no humans, loop running) the timer is stopped and
every AI player is purged; and the scheduler is idempotent, so a redundant
invocation never creates a second timer. -/
theorem manageGameLoop_scheduler_spec :
    ∀ s : ServerState,
    (manageGameLoop s).loopRunning = decide (0 < humanCount s.players)
    ∧ humanCount (manageGameLoop s).players = humanCount s.players
    ∧ (humanCount s.players = 0 → s.loopRunning = true →
        ((manageGameLoop s).players.filter (fun pr => pr.2.isAI) = []
          ∧ (manageGameLoop s).loopRunning = false))
    ∧ manageGameLoop (manageGameLoop s) = manageGameLoop s := by
  intro s
  by_cases hh : humanCount s.players = 0
  · cases hr : s.loopRunning
    · have hs : manageGameLoop s = s := by
        unfold manageGameLoop
        simp [hh, hr]
      refine ⟨?_, ?_, ?_, ?_⟩
      · simp [hs, hh, hr]
      · simp [hs]
      · intro _ hcontra
        exact absurd hcontra (by simp)
      · rw [hs, hs]
    · have hs : manageGameLoop s =
          { s with
              loopRunning := false
              players := s.players.filter (fun pr => !pr.2.isAI) } := by
        unfold manageGameLoop
        simp [hh, hr]
      have hfilter : humanCount (s.players.filter (fun pr => !pr.2.isAI)) =
          humanCount s.players := by
        unfold humanCount
        rw [List.filter_filter]
        simp
      refine ⟨?_, ?_, ?_, ?_⟩
      · simp [hs, hh]
      · simp [hs, hfilter]
      · intro _ _
        constructor
        · rw [hs]
          simp only [List.filter_filter]
          simp
        · simp [hs]
      · have hs2 : manageGameLoop
            { s with
                loopRunning := false
                players := s.players.filter (fun pr => !pr.2.isAI) } =
            { s with
                loopRunning := false
                players := s.players.filter (fun pr => !pr.2.isAI) } := by
          unfold manageGameLoop
          simp [hfilter, hh]
        rw [hs]
        exact hs2
  · cases hr : s.loopRunning
    · have hs : manageGameLoop s = { s with loopRunning := true } := by
        unfold manageGameLoop
        simp [hh, hr, Nat.pos_of_ne_zero hh]
      refine ⟨?_, ?_, ?_, ?_⟩
      · simp [hs, Nat.pos_of_ne_zero hh]
      · simp [hs, humanCount]
      · intro hcontra
        exact absurd hcontra hh
      · have hs2 : manageGameLoop { s with loopRunning := true } =
            { s with loopRunning := true } := by
          unfold manageGameLoop
          simp [hh]
        rw [hs]
        exact hs2
    · have hs : manageGameLoop s = s := by
        unfold manageGameLoop
        simp [hh, hr]
      refine ⟨?_, ?_, ?_, ?_⟩
      · simp [hs, hr, Nat.pos_of_ne_zero hh]
      · simp [hs]
      · intro hcontra
        exact absurd hcontra hh
      · rw [hs, hs]

/-- Witness for C9's teardown clause at a concrete state: one AI player,
no humans, loop running. -/
theorem manageGameLoop_scheduler_witness :
    (manageGameLoop sAI).players.filter (fun pr => pr.2.isAI) = []
    ∧ (manageGameLoop sAI).loopRunning = false :=
  (manageGameLoop_scheduler_spec sAI).2.2.1 (by decide) (by decide)

-- C1: fruit-position uniqueness.

/-- Server state with a single fruit at the origin, used to exhibit a
duplicated fruit. -/
def sC1 : ServerState :=
  { players := [("a", pW)]
    fruits := [⟨0, 0⟩]
    pendingSpawns := 1
    loopRunning := true }

/-- Counterexample for C1: the scheduled `spawnFruit` callback pushes its
random position without any duplicate check.  Starting from a
duplicate-free fruit set containing `(0,0)`, firing a spawn whose random
position is `(0,0)` produces two fruits at the same cell. -/
theorem fruit_uniqueness_counterexample :
    sC1.fruits.Nodup ∧ ¬ ((spawnFruitFire sC1 oW 0).1).fruits.Nodup := by
  decide

/-- C1 amended: only the death-conversion insertions check for an existing
fruit at the cell; they never create a duplicate (the uniqueness invariant
is preserved by `convertBody`), whereas `spawnFruit`'s random insertions
and the replenishment loop insert unconditionally and can duplicate a
position. -/
theorem convertBody_preserves_nodup :
    ∀ (o : Oracle) (body fruits : List Point) (c : Nat),
    fruits.Nodup → ((convertBody o fruits body c).1).Nodup := by
  intro o body
  induction body with
  | nil =>
    intro fruits c h
    simpa [convertBody] using h
  | cons seg rest ih =>
    intro fruits c h
    unfold convertBody at ih ⊢
    simp only [List.foldl_cons]
    cases hcoin : o.coin c with
    | false =>
      simp only [hcoin, Bool.false_eq_true, if_false]
      exact ih fruits (c + 1) h
    | true =>
      simp only [hcoin, if_true]
      cases hp : fruits.any (fun fruit => pointsEqual fruit seg) with
      | true =>
        simp only [hp, if_true]
        exact ih fruits (c + 1) h
      | false =>
        simp only [hp, Bool.false_eq_true, if_false]
        have hnotmem : seg ∉ fruits := by
          intro hmem
          have := List.any_eq_false.mp hp seg hmem
          exact this (pointsEqual_iff.mpr rfl)
        have hnodup : (fruits ++ [seg]).Nodup := by
          rw [List.nodup_append]
          refine ⟨h, List.nodup_singleton seg, ?_⟩
          intro a ha hb
          have : a = seg := by simpa using hb
          subst this
          exact hnotmem ha
        exact ih (fruits ++ [seg]) (c + 1) hnodup

/-- Witness for the amended C1: a concrete death conversion (coin always
true) against a fruit set already containing one of the segments,
preserving uniqueness. -/
theorem convertBody_preserves_nodup_witness :
    ([(⟨0, 0⟩ : Point)].Nodup)
    ∧ ((convertBody oW [⟨0, 0⟩] [⟨0, 0⟩, ⟨1, 1⟩] 0).1).Nodup :=
  ⟨by decide, convertBody_preserves_nodup oW [⟨0, 0⟩, ⟨1, 1⟩] [⟨0, 0⟩] 0 (by decide)⟩

-- C8: the AI population policy.

/-- Freshness of the oracle's AI ids relative to a player map: the next
`c` generated ids (starting at stream index `j`) are absent from the map
and pairwise distinct.  (In the source the ids embed `Date.now()` plus a
random suffix.) -/
def FreshIds (o : Oracle) (players : List (PlayerId × Player))
    (j c : Nat) : Prop :=
  ∀ n, n < c →
    lookupPlayer players (o.freshId (j + n)) = none
    ∧ ∀ m, m < n → o.freshId (j + m) ≠ o.freshId (j + n)

theorem lookupPlayer_eq_none_iff (ps : List (PlayerId × Player))
    (id : PlayerId) :
    lookupPlayer ps id = none ↔ (ps.any (fun pr => pr.1 == id)) = false := by
  simp [lookupPlayer, List.find?_eq_none, List.any_eq_false]

theorem lookupPlayer_append (l1 l2 : List (PlayerId × Player))
    (id : PlayerId) :
    lookupPlayer (l1 ++ l2) id =
      (lookupPlayer l1 id).or (lookupPlayer l2 id) := by
  unfold lookupPlayer
  rw [List.find?_append]
  cases l1.find? (fun pr => pr.1 == id) <;> simp

theorem addAIPlayers_spec (o : Oracle) :
    ∀ (c : Nat) (s : ServerState) (k j : Nat),
    FreshIds o s.players j c →
    ∃ t : List (PlayerId × Player),
      ((addAIPlayers o c (s, k, j)).1).players = s.players ++ t
      ∧ t.length = c
      ∧ (∀ pr ∈ t, pr.2.isAI = true) := by
  intro c
  induction c with
  | zero =>
    intro s k j _
    exact ⟨[], by simp [addAIPlayers], rfl, by simp⟩
  | succ c ih =>
    intro s k j hfresh
    have h0 := hfresh 0 (Nat.succ_pos c)
    have hnone : lookupPlayer s.players (o.freshId j) = none := by
      simpa using h0.1
    have hany : (s.players.any (fun pr => pr.1 == o.freshId j)) = false :=
      (lookupPlayer_eq_none_iff _ _).mp hnone
    set newP : Player :=
      { snake := createSnake (getSafeSpawnPosition s.players o k).1
          Direction.RIGHT
        direction := Direction.RIGHT
        score := 0
        directionQueue := []
        isAI := true } with hnewP
    set s' : ServerState :=
      { s with players := s.players ++ [(o.freshId j, newP)] } with hs'
    -- one `addAIPlayer` step appends a fresh AI entry
    have hstep : addAIPlayer o s k j =
        (s', (getSafeSpawnPosition s.players o k).2, j + 1) := by
      unfold addAIPlayer insertPlayer
      rw [hs', hnewP]
      simp only [hany]
      rfl
    have hfresh' : FreshIds o s'.players (j + 1) c := by
      intro n hn
      have hsucc := hfresh (n + 1) (by omega)
      have harg : j + 1 + n = j + (n + 1) := by omega
      constructor
      · show lookupPlayer (s.players ++ [(o.freshId j, newP)]) _ = none
        rw [lookupPlayer_append, harg]
        rw [hsucc.1]
        have hne : o.freshId j ≠ o.freshId (j + (n + 1)) := by
          have := hsucc.2 0 (by omega)
          simpa using this
        have hunit : lookupPlayer [(o.freshId j, newP)]
            (o.freshId (j + (n + 1))) = none := by
          rw [lookupPlayer_eq_none_iff]
          simp only [List.any_cons, List.any_nil, Bool.or_false]
          exact beq_eq_false_iff_ne.mpr hne
        rw [hunit]
        rfl
      · intro m hm
        have harg2 : j + 1 + m = j + (m + 1) := by omega
        rw [harg, harg2]
        exact hsucc.2 (m + 1) (by omega)
    obtain ⟨t', ht1, ht2, ht3⟩ :=
      ih s' (getSafeSpawnPosition s.players o k).2 (j + 1) hfresh'
    refine ⟨(o.freshId j, newP) :: t', ?_, by simp [ht2], ?_⟩
    · show ((addAIPlayers o c (addAIPlayer o s k j)).1).players = _
      rw [hstep, ht1, hs']
      simp
    · intro pr hpr
      rcases List.mem_cons.mp hpr with h | h
      · subst h; rfl
      · exact ht3 pr h

/-- C8: the AI target count is the exact step function of the human count
(1 human → 3 AI, 2 → 2, 3 → 1, 0 or ≥4 → 0); when the current AI count is
below target, `manageAIPlayers` immediately appends fresh AI players up to
the target, never removing an existing player and never changing the human
count; when at or above target nothing happens. -/
theorem manageAIPlayers_table_and_growth :
    ∀ (o : Oracle) (s : ServerState) (k j : Nat),
    (targetAICount 1 = 3 ∧ targetAICount 2 = 2 ∧ targetAICount 3 = 1
      ∧ targetAICount 0 = 0 ∧ ∀ h, 4 ≤ h → targetAICount h = 0)
    ∧ (FreshIds o s.players j
        (targetAICount (humanCount s.players) - aiCount s.players) →
      ∃ t : List (PlayerId × Player),
        ((manageAIPlayers o s k j).1).players = s.players ++ t
        ∧ (∀ pr ∈ t, pr.2.isAI = true)
        ∧ aiCount ((manageAIPlayers o s k j).1).players =
            max (aiCount s.players) (targetAICount (humanCount s.players))
        ∧ humanCount ((manageAIPlayers o s k j).1).players =
            humanCount s.players) := by
  intro o s k j
  constructor
  · refine ⟨rfl, rfl, rfl, rfl, ?_⟩
    intro h hh
    unfold targetAICount
    have h1 : h ≠ 1 := by omega
    have h2 : h ≠ 2 := by omega
    have h3 : h ≠ 3 := by omega
    simp [h1, h2, h3]
  · intro hfresh
    unfold manageAIPlayers
    by_cases hlt : aiCount s.players < targetAICount (humanCount s.players)
    · simp only [hlt, if_true]
      obtain ⟨t, ht1, ht3, ht2⟩ :=
        addAIPlayers_spec o _ s k j hfresh
      refine ⟨t, ht1, ht2, ?_, ?_⟩
      · rw [ht1, Nat.max_eq_right (Nat.le_of_lt hlt)]
        unfold aiCount
        rw [List.filter_append]
        have hft : t.filter (fun pr => pr.2.isAI) = t :=
          List.filter_eq_self.mpr (fun a ha => by rw [ht2 a ha])
        rw [hft]
        simp only [List.length_append]
        unfold aiCount at ht3 hlt
        omega
      · rw [ht1]
        unfold humanCount
        rw [List.filter_append]
        have hft : t.filter (fun pr => !pr.2.isAI) = [] :=
          List.filter_eq_nil_iff.mpr (fun a ha => by simp [ht2 a ha])
        rw [hft]
        simp
    · simp only [hlt, if_false]
      refine ⟨[], ?_, ?_, ?_, ?_⟩
      · simp
      · intro pr hpr
        exact absurd hpr (List.not_mem_nil pr)
      · rw [Nat.max_eq_left (Nat.le_of_not_lt hlt)]
      · trivial

/-- Witness for C8 at a concrete state: one human player, three fresh AI
ids. -/
theorem manageAIPlayers_growth_witness :
    aiCount ((manageAIPlayers oW sW 0 0).1).players =
      max (aiCount sW.players) (targetAICount (humanCount sW.players))
    ∧ humanCount ((manageAIPlayers oW sW 0 0).1).players =
        humanCount sW.players := by
  obtain ⟨t, _, _, hc, hd⟩ :=
    (manageAIPlayers_table_and_growth oW sW 0 0).2 (by unfold FreshIds; decide)
  exact ⟨hc, hd⟩

-- Lemmas about the respawn routine of the game loop.

theorem createSnake_length (p : Point) (d : Direction) :
    (createSnake p d).length = INITIAL_SNAKE_LENGTH := by
  cases d <;> rfl

theorem respawnPlayer_lookup_self (o : Oracle) (st : TickState)
    (pid : PlayerId) (p : Player)
    (h : lookupPlayer st.players pid = some p) :
    lookupPlayer (respawnPlayer o st pid).players pid =
      some { p with
        direction := Direction.RIGHT
        snake := createSnake (getSafeSpawnPosition st.players o st.posIdx).1
          Direction.RIGHT
        score := 0 } := by
  unfold respawnPlayer
  rw [h]
  dsimp only
  rw [lookupPlayer_updatePlayer_self, h]
  rfl

theorem respawnPlayer_lookup_other (o : Oracle) (st : TickState)
    (pid x : PlayerId) (hx : x ≠ pid) :
    lookupPlayer (respawnPlayer o st pid).players x =
      lookupPlayer st.players x := by
  unfold respawnPlayer
  cases h : lookupPlayer st.players pid
  · rfl
  · dsimp only
    exact lookupPlayer_updatePlayer_other _ _ _ _ hx

theorem respawnPlayer_headPositions (o : Oracle) (st : TickState)
    (pid : PlayerId) :
    (respawnPlayer o st pid).headPositions = st.headPositions := by
  unfold respawnPlayer
  cases lookupPlayer st.players pid <;> rfl

theorem respawnPlayer_pendingSpawns (o : Oracle) (st : TickState)
    (pid : PlayerId) :
    (respawnPlayer o st pid).pendingSpawns = st.pendingSpawns := by
  unfold respawnPlayer
  cases lookupPlayer st.players pid <;> rfl

theorem findH2H_ne (entries : List (PlayerId × Point)) (id : PlayerId)
    (nh : Point) (v : PlayerId)
    (h : findH2H entries id nh = some v) : v ≠ id := by
  unfold findH2H at h
  cases hf : entries.find? (fun e => e.1 != id && pointsEqual e.2 nh) with
  | none => rw [hf] at h; exact absurd h (by simp)
  | some e =>
    rw [hf] at h
    have hpred := List.find?_some hf
    simp only [Bool.and_eq_true, bne_iff_ne, ne_eq] at hpred
    have : e.1 = v := by simpa using h
    rw [← this]
    exact hpred.1

-- C2: collision resolution always respawns with score 0 and fresh body.

/-- The intermediate tick state after the queue-shift of the processed
player (the `st1` of `processPlayer`), named for use in proofs. -/
@[reducible]
def dirUpdate (st : TickState) (id : PlayerId) (player : Player) :
    TickState :=
  { st with players := updatePlayer st.players id (fun q =>
      { q with
          direction := effectiveDirection player
          directionQueue := q.directionQueue.tail }) }

/-- C2: in the per-player step of the game loop, a player whose computed
new head collides (wall, pre-tick body segment, or an earlier-processed
player's committed new head) ends the step with score 0, heading RIGHT and
a freshly spawned body of exactly `INITIAL_SNAKE_LENGTH` segments; and in
the head-to-head case the earlier-processed victim is also retroactively
reset to score 0, heading RIGHT and a fresh initial-length body, even
though its own step already succeeded. -/
theorem collision_respawn_spec :
    ∀ (snapshot : List (PlayerId × List Point)) (o : Oracle)
      (st : TickState) (id : PlayerId) (player : Player),
    lookupPlayer st.players id = some player →
    (wallHit (newHeadOf player) = true
      ∨ hitsSnapshot snapshot (newHeadOf player) = true
      ∨ (findH2H st.headPositions id (newHeadOf player)).isSome = true) →
    ((∃ q pos,
        lookupPlayer (processPlayer snapshot o st id).players id = some q
        ∧ q.score = 0 ∧ q.direction = Direction.RIGHT
        ∧ q.snake = createSnake pos Direction.RIGHT
        ∧ q.snake.length = INITIAL_SNAKE_LENGTH)
    ∧ ∀ v pv, findH2H st.headPositions id (newHeadOf player) = some v →
        wallHit (newHeadOf player) = false →
        lookupPlayer st.players v = some pv →
        ∃ q pos,
          lookupPlayer (processPlayer snapshot o st id).players v = some q
          ∧ q.score = 0 ∧ q.direction = Direction.RIGHT
          ∧ q.snake = createSnake pos Direction.RIGHT
          ∧ q.snake.length = INITIAL_SNAKE_LENGTH) := by
  intro snapshot o st id player hlook hcol
  have h1 : lookupPlayer (updatePlayer st.players id (fun q =>
      { q with
          direction := effectiveDirection player
          directionQueue := q.directionQueue.tail })) id =
      some { player with
        direction := effectiveDirection player
        directionQueue := player.directionQueue.tail } := by
    rw [lookupPlayer_updatePlayer_self, hlook]
    rfl
  constructor
  · by_cases hwall : wallHit (newHeadOf player) = true
    · unfold processPlayer
      rw [hlook]
      dsimp only
      rw [if_pos hwall]
      refine ⟨_, _,
        respawnPlayer_lookup_self o (dirUpdate st id player) id _ h1,
        rfl, rfl, rfl, ?_⟩
      simp only [createSnake_length]
    · have hwf : wallHit (newHeadOf player) = false := by
        revert hwall; cases wallHit (newHeadOf player) <;> simp
      unfold processPlayer
      rw [hlook]
      dsimp only
      rw [if_neg (by simp [hwf])]
      cases hv : findH2H st.headPositions id (newHeadOf player) with
      | some v =>
        dsimp only
        rw [if_pos (by simp)]
        have hvne : v ≠ id := findH2H_ne _ _ _ _ hv
        have h2 : lookupPlayer
            (respawnPlayer o (dirUpdate st id player) v).players id =
            some { player with
              direction := effectiveDirection player
              directionQueue := player.directionQueue.tail } := by
          rw [respawnPlayer_lookup_other o (dirUpdate st id player) v id
            (Ne.symm hvne)]
          exact h1
        refine ⟨_, _,
          respawnPlayer_lookup_self o
            (respawnPlayer o (dirUpdate st id player) v) id _ h2,
          rfl, rfl, rfl, ?_⟩
        simp only [createSnake_length]
      | none =>
        have hsnapT : hitsSnapshot snapshot (newHeadOf player) = true := by
          rcases hcol with h | h | h
          · rw [hwf] at h; exact absurd h (by simp)
          · exact h
          · rw [hv] at h; exact absurd h (by simp)
        dsimp only
        rw [if_pos (by simp [hsnapT])]
        refine ⟨_, _,
          respawnPlayer_lookup_self o (dirUpdate st id player) id _ h1,
          rfl, rfl, rfl, ?_⟩
        simp only [createSnake_length]
  · intro v pv hv hwf hlookv
    unfold processPlayer
    rw [hlook]
    dsimp only
    rw [if_neg (by simp [hwf])]
    rw [hv]
    dsimp only
    rw [if_pos (by simp)]
    have hvne : v ≠ id := findH2H_ne _ _ _ _ hv
    rw [respawnPlayer_lookup_other o _ id v hvne]
    have hlv1 : lookupPlayer (updatePlayer st.players id (fun q =>
        { q with
            direction := effectiveDirection player
            directionQueue := q.directionQueue.tail })) v = some pv := by
      rw [lookupPlayer_updatePlayer_other _ _ _ _ hvne]
      exact hlookv
    refine ⟨_, _,
      respawnPlayer_lookup_self o (dirUpdate st id player) v _ hlv1,
      rfl, rfl, rfl, ?_⟩
    simp only [createSnake_length]

/-- Player about to hit the right wall. -/
def pWall : Player :=
  { pW with snake := [⟨95, 5⟩, ⟨94, 5⟩, ⟨93, 5⟩], score := 7 }

/-- Tick state with the wall-bound player. -/
def stWall : TickState :=
  { players := [("a", pWall)]
    fruits := []
    pendingSpawns := 0
    headPositions := []
    posIdx := 0
    coinIdx := 0 }

/-- Witness for C2: a concrete wall collision resets score, heading and
body length. -/
theorem collision_respawn_spec_witness :
    (lookupPlayer (processPlayer [] oW stWall "a").players "a").map
      (fun q => (q.score, q.direction, q.snake.length)) =
      some (0, Direction.RIGHT, INITIAL_SNAKE_LENGTH) := by
  obtain ⟨⟨q, pos, hq, hs, hd, _, hl⟩, _⟩ :=
    collision_respawn_spec [] oW stWall "a" pWall (by decide) (Or.inl (by decide))
  rw [hq]
  simp [hs, hd, hl]

-- C5: fruit consumption and movement in the per-player step.

/-- C5 amended: in the per-player step, a non-colliding player whose new
head carries a fruit removes exactly the first matching fruit, gains
exactly one point, and grows by one segment (new head pushed, tail kept);
with no fruit at the new head the snake moves without growth and the score
is unchanged.  Exactly one replacement spawn is scheduled **provided** the
fruit count after the removal is still below the hard cap
`3 × INITIAL_FRUIT_COUNT`; at or above the cap no spawn is scheduled. -/
theorem eat_and_move_spec :
    ∀ (snapshot : List (PlayerId × List Point)) (o : Oracle)
      (st : TickState) (id : PlayerId) (player : Player),
    lookupPlayer st.players id = some player →
    wallHit (newHeadOf player) = false →
    hitsSnapshot snapshot (newHeadOf player) = false →
    findH2H st.headPositions id (newHeadOf player) = none →
    ((∀ i, st.fruits.findIdx?
        (fun fruit => pointsEqual fruit (newHeadOf player)) = some i →
      (processPlayer snapshot o st id).fruits = st.fruits.eraseIdx i
      ∧ (∃ q, lookupPlayer (processPlayer snapshot o st id).players id = some q
          ∧ q.score = player.score + 1
          ∧ q.snake = newHeadOf player :: player.snake)
      ∧ (processPlayer snapshot o st id).pendingSpawns =
          (if INITIAL_FRUIT_COUNT * 3 ≤ (st.fruits.eraseIdx i).length then
            st.pendingSpawns
          else st.pendingSpawns + 1))
    ∧ (st.fruits.findIdx?
        (fun fruit => pointsEqual fruit (newHeadOf player)) = none →
      (processPlayer snapshot o st id).fruits = st.fruits
      ∧ (∃ q, lookupPlayer (processPlayer snapshot o st id).players id = some q
          ∧ q.score = player.score
          ∧ q.snake = newHeadOf player :: player.snake.dropLast)
      ∧ (processPlayer snapshot o st id).pendingSpawns = st.pendingSpawns)) := by
  intro snapshot o st id player hlook hwf hsnap hh2h
  constructor
  · intro i hidx
    unfold processPlayer
    rw [hlook]
    dsimp only
    rw [if_neg (by simp [hwf])]
    rw [hh2h]
    dsimp only
    rw [if_neg (by simp [hsnap])]
    rw [hidx]
    dsimp only
    by_cases hcap : INITIAL_FRUIT_COUNT * 3 ≤ (st.fruits.eraseIdx i).length
    · rw [if_pos hcap]
      refine ⟨rfl, ⟨{ player with
          direction := effectiveDirection player
          directionQueue := player.directionQueue.tail
          score := player.score + 1
          snake := newHeadOf player :: player.snake }, ?_, rfl, rfl⟩,
        by rw [if_pos hcap]⟩
      rw [lookupPlayer_updatePlayer_self, lookupPlayer_updatePlayer_self,
        hlook]
      rfl
    · rw [if_neg hcap]
      refine ⟨rfl, ⟨{ player with
          direction := effectiveDirection player
          directionQueue := player.directionQueue.tail
          score := player.score + 1
          snake := newHeadOf player :: player.snake }, ?_, rfl, rfl⟩,
        by rw [if_neg hcap]⟩
      rw [lookupPlayer_updatePlayer_self, lookupPlayer_updatePlayer_self,
        hlook]
      rfl
  · intro hidx
    unfold processPlayer
    rw [hlook]
    dsimp only
    rw [if_neg (by simp [hwf])]
    rw [hh2h]
    dsimp only
    rw [if_neg (by simp [hsnap])]
    rw [hidx]
    dsimp only
    refine ⟨rfl, ⟨{ player with
        direction := effectiveDirection player
        directionQueue := player.directionQueue.tail
        snake := newHeadOf player :: player.snake.dropLast }, ?_, rfl, rfl⟩,
      rfl⟩
    rw [lookupPlayer_updatePlayer_self, lookupPlayer_updatePlayer_self, hlook]
    rfl

/-- Tick state where the player at `(5,5)` heading RIGHT is about to eat
the fruit at `(6,5)`. -/
def stW : TickState :=
  { players := [("a", pW)]
    fruits := [⟨6, 5⟩]
    pendingSpawns := 0
    headPositions := []
    posIdx := 0
    coinIdx := 0 }

/-- Witness for the amended C5: eating the only fruit removes it and
schedules exactly one replacement spawn. -/
theorem eat_and_move_spec_witness :
    (processPlayer [] oW stW "a").fruits = stW.fruits.eraseIdx 0
    ∧ (processPlayer [] oW stW "a").pendingSpawns = stW.pendingSpawns + 1 := by
  have h := (eat_and_move_spec [] oW stW "a" pW (by decide) (by decide)
    (by decide) (by decide)).1 0 (by decide)
  refine ⟨h.1, ?_⟩
  have h3 := h.2.2
  rw [if_neg (by decide)] at h3
  exact h3

/-- Tick state at the fruit cap: sixty-one fruits, one of them at the cell
`(2,0)` the player is about to enter. -/
def stC5 : TickState :=
  { players := [("a",
      { snake := [⟨1, 0⟩, ⟨0, 0⟩, ⟨0, 1⟩]
        direction := Direction.RIGHT
        score := 0
        directionQueue := []
        isAI := false })]
    fruits := ⟨2, 0⟩ :: List.replicate 60 ⟨9, 9⟩
    pendingSpawns := 0
    headPositions := []
    posIdx := 0
    coinIdx := 0 }

/-- Counterexample for C5: when the fruit count is at or above the hard
cap after the removal, eating a fruit schedules **no** replacement spawn —
the fruit is removed and the score increments, but `pendingSpawns` stays
unchanged, contradicting "exactly one new fruit spawn is
triggered/scheduled". -/
theorem eat_without_spawn_counterexample :
    (processPlayer [] oW stC5 "a").fruits.length + 1 = stC5.fruits.length
    ∧ (lookupPlayer (processPlayer [] oW stC5 "a").players "a").map
        (fun q => q.score) = some 1
    ∧ (processPlayer [] oW stC5 "a").pendingSpawns = stC5.pendingSpawns := by
  decide

-- C10: the stale head-position entry and the double respawn.

/-- C10: when player `c` is processed and its computed new head equals the
committed head entry of an earlier-processed player `b` (`b`'s entry is
still present even if `b` has already been retroactively respawned this
tick), `c` is marked as a head-to-head collision and respawned, `b` is
respawned (again) — its current body is discarded for a fresh spawn and
its score reset to 0 — and `b`'s head-position entry is *not* removed, so
the same cell keeps triggering collisions for later players of the same
tick. -/
theorem stale_headPosition_double_respawn :
    ∀ (snapshot : List (PlayerId × List Point)) (o : Oracle)
      (st : TickState) (c : PlayerId) (pc : Player) (b : PlayerId)
      (pb : Player),
    lookupPlayer st.players c = some pc →
    wallHit (newHeadOf pc) = false →
    findH2H st.headPositions c (newHeadOf pc) = some b →
    lookupPlayer st.players b = some pb →
    ((processPlayer snapshot o st c).headPositions = st.headPositions
    ∧ (∃ pos, lookupPlayer (processPlayer snapshot o st c).players b =
        some { pb with
          direction := Direction.RIGHT
          snake := createSnake pos Direction.RIGHT
          score := 0 })
    ∧ (∃ q pos, lookupPlayer (processPlayer snapshot o st c).players c = some q
        ∧ q.score = 0 ∧ q.snake = createSnake pos Direction.RIGHT)) := by
  intro snapshot o st c pc b pb hlook hwf hv hlookb
  have hvne : b ≠ c := findH2H_ne _ _ _ _ hv
  have h1 : lookupPlayer (updatePlayer st.players c (fun q =>
      { q with
          direction := effectiveDirection pc
          directionQueue := q.directionQueue.tail })) c =
      some { pc with
        direction := effectiveDirection pc
        directionQueue := pc.directionQueue.tail } := by
    rw [lookupPlayer_updatePlayer_self, hlook]
    rfl
  have hlb1 : lookupPlayer (updatePlayer st.players c (fun q =>
      { q with
          direction := effectiveDirection pc
          directionQueue := q.directionQueue.tail })) b = some pb := by
    rw [lookupPlayer_updatePlayer_other _ _ _ _ hvne]
    exact hlookb
  refine ⟨?_, ?_, ?_⟩
  · unfold processPlayer
    rw [hlook]
    dsimp only
    rw [if_neg (by simp [hwf])]
    rw [hv]
    dsimp only
    rw [if_pos (by simp)]
    rw [respawnPlayer_headPositions, respawnPlayer_headPositions]
  · unfold processPlayer
    rw [hlook]
    dsimp only
    rw [if_neg (by simp [hwf])]
    rw [hv]
    dsimp only
    rw [if_pos (by simp)]
    rw [respawnPlayer_lookup_other o _ c b hvne]
    exact ⟨_, respawnPlayer_lookup_self o (dirUpdate st c pc) b _ hlb1⟩
  · unfold processPlayer
    rw [hlook]
    dsimp only
    rw [if_neg (by simp [hwf])]
    rw [hv]
    dsimp only
    rw [if_pos (by simp)]
    have h2 : lookupPlayer
        (respawnPlayer o (dirUpdate st c pc) b).players c =
        some { pc with
          direction := effectiveDirection pc
          directionQueue := pc.directionQueue.tail } := by
      rw [respawnPlayer_lookup_other o (dirUpdate st c pc) b c
        (Ne.symm hvne)]
      exact h1
    exact ⟨_, _, respawnPlayer_lookup_self o
      (respawnPlayer o (dirUpdate st c pc) b) c _ h2, rfl, rfl⟩

/-- Tick state for the C10 witness: `b` has already committed its new head
at `(5,5)` this tick; `c` is heading into the same cell. -/
def stH2H : TickState :=
  { players := [("b", pW), ("c",
      { snake := [⟨4, 5⟩, ⟨3, 5⟩, ⟨2, 5⟩]
        direction := Direction.RIGHT
        score := 2
        directionQueue := []
        isAI := false })]
    fruits := []
    pendingSpawns := 0
    headPositions := [("b", ⟨5, 5⟩)]
    posIdx := 0
    coinIdx := 0 }

/-- Witness for C10: the stale entry survives the collision and `b` is
reset. -/
theorem stale_headPosition_double_respawn_witness :
    (processPlayer [] oW stH2H "c").headPositions = stH2H.headPositions
    ∧ (lookupPlayer (processPlayer [] oW stH2H "c").players "b").map
        (fun q => (q.score, q.direction)) = some (0, Direction.RIGHT) := by
  obtain ⟨hhp, ⟨pos, hb⟩, _⟩ :=
    stale_headPosition_double_respawn [] oW stH2H "c"
      { snake := [⟨4, 5⟩, ⟨3, 5⟩, ⟨2, 5⟩]
        direction := Direction.RIGHT
        score := 2
        directionQueue := []
        isAI := false } "b" pW
      (by decide) (by decide) (by decide) (by decide)
  refine ⟨hhp, ?_⟩
  rw [hb]
  rfl

-- C3: the AI decision function agrees with its specification.

theorem argStep_foldl :
    ∀ (l : List (Direction × Nat)) (b : Direction × Nat),
    l.foldl argStep (some b) =
      some ((firstArgmax l).elim b (fun y => if b.2 < y.2 then y else b)) := by
  intro l
  induction l with
  | nil => intro b; rfl
  | cons x xs ih =>
    intro b
    have hstep : argStep (some b) x = some (if b.2 < x.2 then x else b) := by
      unfold argStep
      by_cases h : b.2 < x.2 <;> simp [h]
    rw [List.foldl_cons, hstep, ih]
    have hcons : firstArgmax (x :: xs) =
        some ((firstArgmax xs).elim x (fun y => if x.2 < y.2 then y else x)) := by
      show xs.foldl argStep (argStep none x) = _
      rw [show argStep none x = some x from rfl, ih]
    rw [hcons]
    cases hfa : firstArgmax xs with
    | none =>
      simp only [hfa, Option.elim]
    | some y =>
      simp only [hfa, Option.elim]
      by_cases h1 : b.2 < x.2 <;> by_cases h2 : x.2 < y.2
      · have h3 : b.2 < y.2 := Nat.lt_trans h1 h2
        simp [h1, h2, h3]
      · simp [h1, h2]
      · simp [h1, h2]
      · have h3 : ¬ b.2 < y.2 := by omega
        simp [h1, h2, h3]

theorem firstArgmax_cons (x : Direction × Nat) (xs : List (Direction × Nat)) :
    firstArgmax (x :: xs) =
      some ((firstArgmax xs).elim x (fun y => if x.2 < y.2 then y else x)) := by
  show xs.foldl argStep (argStep none x) = _
  rw [show argStep none x = some x from rfl, argStep_foldl]

theorem insertDesc_head? (x : Direction × Nat) (l : List (Direction × Nat)) :
    (insertDesc x l).head? =
      some ((l.head?).elim x (fun y => if x.2 < y.2 then y else x)) := by
  cases l with
  | nil => rfl
  | cons y ys =>
    unfold insertDesc
    by_cases h : x.2 < y.2 <;> simp [h]

theorem sortDesc_head? :
    ∀ l : List (Direction × Nat), (sortDesc l).head? = firstArgmax l := by
  intro l
  induction l with
  | nil => rfl
  | cons x xs ih =>
    show (insertDesc x (sortDesc xs)).head? = _
    rw [insertDesc_head?, ih, firstArgmax_cons]

/-- C3: the source AI decision function coincides, for every world state,
with the spec's description: candidates are the four directions minus the
exact reverse of the current heading; candidates whose next head is
off-grid or on any snake segment are discarded; survivors score
flood-fill-reachable-space (capped at 100) plus 5 exactly when the move
strictly decreases the Manhattan distance to the nearest fruit; the first
highest-scoring candidate in enumeration order UP, DOWN, LEFT, RIGHT wins;
with no safe candidate the current heading is returned unchanged. -/
theorem calculateAIMove_eq_spec :
    ∀ (players : List (PlayerId × Player)) (fruits : List Point)
      (pid : PlayerId),
    calculateAIMove players fruits pid = specAIMove players fruits pid := by
  intro players fruits pid
  unfold calculateAIMove specAIMove
  cases hlook : lookupPlayer players pid with
  | none => rfl
  | some player =>
    dsimp only
    have hcand : ([UP, DOWN, LEFT, RIGHT].filter
          (fun dir => !isOpposite player.direction dir)) =
        ([UP, DOWN, LEFT, RIGHT].filter
          (fun dir => dir ≠ reverseDir player.direction)) := by
      apply List.filter_congr
      intro d _
      rw [isOpposite_eq_decide, ← decide_not]
    have hlist : (([UP, DOWN, LEFT, RIGHT].filter
          (fun dir => !isOpposite player.direction dir)).filter (fun dir =>
        !wallHit (dirStep (player.snake.headD ⟨0, 0⟩) dir) &&
        !isPositionOccupied players (dirStep (player.snake.headD ⟨0, 0⟩) dir)))
        = (([UP, DOWN, LEFT, RIGHT].filter
          (fun dir => dir ≠ reverseDir player.direction)).filter (fun dir =>
        decide (inGrid (dirStep (player.snake.headD ⟨0, 0⟩) dir)) &&
        !isPositionOccupied players
          (dirStep (player.snake.headD ⟨0, 0⟩) dir))) := by
      rw [hcand]
      apply List.filter_congr
      intro d _
      rw [not_wallHit_eq_decide]
    rw [hlist]
    cases hsafe : (([UP, DOWN, LEFT, RIGHT].filter
          (fun dir => dir ≠ reverseDir player.direction)).filter (fun dir =>
        decide (inGrid (dirStep (player.snake.headD ⟨0, 0⟩) dir)) &&
        !isPositionOccupied players
          (dirStep (player.snake.headD ⟨0, 0⟩) dir))) with
    | nil => rfl
    | cons d ds =>
      simp only [List.isEmpty_cons, List.map_cons]
      rw [if_neg (by simp)]
      rw [List.headD_eq_head?, sortDesc_head?]
      rw [firstArgmax_cons]
      rfl

-- C4: head-in-grid / length bounds after a tick.

/-- The body well-formedness invariant maintained by the tick: at least
the initial length, head in the grid, pairwise-distinct cells, and at most
`INITIAL_SNAKE_LENGTH - 1` off-grid cells (the tail remnants of a spawn
near the left/top edge). -/
def goodBody (b : List Point) : Prop :=
  INITIAL_SNAKE_LENGTH ≤ b.length
  ∧ inGrid (b.headD ⟨0, 0⟩)
  ∧ b.Nodup
  ∧ (b.filter (fun p => wallHit p)).length ≤ INITIAL_SNAKE_LENGTH - 1

instance (b : List Point) : Decidable (goodBody b) := by
  unfold goodBody; infer_instance

theorem getSafeSpawnLoop_inGrid (ps : List (PlayerId × Player)) (o : Oracle)
    (hO : ∀ n, inGrid (o.pos n)) :
    ∀ (fuel : Nat) (pos : Point) (k : Nat), inGrid pos →
    inGrid (getSafeSpawnLoop ps o pos k fuel).1 := by
  intro fuel
  induction fuel with
  | zero => intro pos k h; exact h
  | succ n ih =>
    intro pos k h
    unfold getSafeSpawnLoop
    by_cases hocc : isPositionOccupied ps pos = true
    · rw [if_pos hocc]
      exact ih (o.pos k) (k + 1) (hO k)
    · rw [if_neg hocc]
      exact h

theorem getSafeSpawnPosition_inGrid (ps : List (PlayerId × Player))
    (o : Oracle) (k : Nat) (hO : ∀ n, inGrid (o.pos n)) :
    inGrid (getSafeSpawnPosition ps o k).1 :=
  getSafeSpawnLoop_inGrid ps o hO 100 (o.pos k) (k + 1) (hO k)

theorem createSnake_right_eq (s : Point) :
    createSnake s Direction.RIGHT =
      [s, ⟨s.x - 1, s.y⟩, ⟨s.x - 2, s.y⟩] := by
  show s :: _ = _
  norm_num [createSnake, INITIAL_SNAKE_LENGTH, List.range']

theorem createSnake_right_good (s : Point) (h : inGrid s) :
    goodBody (createSnake s Direction.RIGHT) := by
  obtain ⟨sx, sy⟩ := s
  obtain ⟨h1, h2, h3, h4⟩ := h
  simp only [GRID_WIDTH, GRID_HEIGHT] at h1 h2 h3 h4
  rw [createSnake_right_eq]
  refine ⟨by simp [INITIAL_SNAKE_LENGTH], ⟨h1, h2, h3, h4⟩, ?_, ?_⟩
  · rw [List.nodup_cons, List.nodup_cons]
    refine ⟨?_, ?_, List.nodup_singleton _⟩
    · intro hmem
      simp only [List.mem_cons, List.mem_singleton, List.not_mem_nil,
        or_false, Point.mk.injEq] at hmem
      omega
    · intro hmem
      simp only [List.mem_singleton, List.mem_cons, List.not_mem_nil,
        or_false, Point.mk.injEq] at hmem
      omega
  · have hw : wallHit ⟨sx, sy⟩ = false :=
      wallHit_false_iff.mpr ⟨h1, h2, h3, h4⟩
    rw [List.filter_cons, hw]
    simp only [Bool.false_eq_true, if_false]
    calc (List.filter (fun p => wallHit p)
          [(⟨sx - 1, sy⟩ : Point), ⟨sx - 2, sy⟩]).length
        ≤ ([(⟨sx - 1, sy⟩ : Point), ⟨sx - 2, sy⟩]).length :=
          List.length_filter_le _ _
      _ ≤ INITIAL_SNAKE_LENGTH - 1 := by
          simp [INITIAL_SNAKE_LENGTH]

set_option maxRecDepth 4000 in
theorem inGrid_nodup_length_le (l : List Point) (hnd : l.Nodup)
    (hin : ∀ p ∈ l, inGrid p) : l.length ≤ GRID_CELLS := by
  have hinj : Function.Injective (fun p : Point => (p.x, p.y)) := by
    intro a b hab
    cases a; cases b
    simpa [Prod.ext_iff, Point.mk.injEq] using hab
  have hm : (l.map (fun p => (p.x, p.y))).Nodup := hnd.map hinj
  have hsub : (l.map (fun p => (p.x, p.y))).toFinset ⊆
      (Finset.Ico (0 : Int) 96) ×ˢ (Finset.Ico (0 : Int) 54) := by
    intro q hq
    rw [List.mem_toFinset, List.mem_map] at hq
    obtain ⟨p, hp, hpq⟩ := hq
    obtain ⟨g1, g2, g3, g4⟩ := hin p hp
    rw [Finset.mem_product, ← hpq]
    constructor
    · rw [Finset.mem_Ico]
      exact ⟨g1, by simpa [GRID_WIDTH] using g2⟩
    · rw [Finset.mem_Ico]
      exact ⟨g3, by simpa [GRID_HEIGHT] using g4⟩
  calc l.length = (l.map (fun p => (p.x, p.y))).length :=
        (List.length_map _ _).symm
    _ = (l.map (fun p => (p.x, p.y))).toFinset.card :=
        (List.toFinset_card_of_nodup hm).symm
    _ ≤ ((Finset.Ico (0 : Int) 96) ×ˢ (Finset.Ico (0 : Int) 54)).card :=
        Finset.card_le_card hsub
    _ = GRID_CELLS := by
        rw [Finset.card_product, Int.card_Ico, Int.card_Ico]
        decide

theorem goodBody_length_le (b : List Point) (h : goodBody b) :
    b.length ≤ GRID_CELLS + (INITIAL_SNAKE_LENGTH - 1) := by
  obtain ⟨-, -, hnd, hoff⟩ := h
  have hsplit : b.length = (b.filter (fun p => wallHit p)).length +
      (b.filter (fun p => !wallHit p)).length :=
    List.length_eq_length_filter_add _
  have hgood : (b.filter (fun p => !wallHit p)).length ≤ GRID_CELLS := by
    apply inGrid_nodup_length_le
    · exact List.Nodup.sublist (List.filter_sublist b) hnd
    · intro p hp
      have hpf := List.of_mem_filter hp
      exact wallHit_false_iff.mp (by simpa using hpf)
  omega

/-- Lookup into the pre-tick snapshot (`currentSnakes[id]`). -/
def snapLookup (snapshot : List (PlayerId × List Point)) (x : PlayerId) :
    Option (List Point) :=
  (snapshot.find? (fun e => e.1 == x)).map (·.2)

theorem updatePlayer_good (ps : List (PlayerId × Player)) (id : PlayerId)
    (f : Player → Player)
    (hGood : ∀ x p, lookupPlayer ps x = some p → goodBody p.snake)
    (hf : ∀ p, lookupPlayer ps id = some p → goodBody (f p).snake) :
    ∀ x p, lookupPlayer (updatePlayer ps id f) x = some p →
      goodBody p.snake := by
  intro x p hx
  by_cases hxid : x = id
  · subst hxid
    rw [lookupPlayer_updatePlayer_self] at hx
    cases hlook : lookupPlayer ps x with
    | none => rw [hlook] at hx; exact absurd hx (by simp)
    | some p0 =>
      rw [hlook] at hx
      have hpf : f p0 = p := by simpa using hx
      rw [← hpf]
      exact hf p0 hlook
  · rw [lookupPlayer_updatePlayer_other _ _ _ _ hxid] at hx
    exact hGood x p hx

theorem respawnPlayer_good (o : Oracle) (st : TickState) (pid : PlayerId)
    (hO : ∀ n, inGrid (o.pos n))
    (hGood : ∀ x p, lookupPlayer st.players x = some p → goodBody p.snake) :
    ∀ x p, lookupPlayer (respawnPlayer o st pid).players x = some p →
      goodBody p.snake := by
  unfold respawnPlayer
  cases hlook : lookupPlayer st.players pid with
  | none => exact hGood
  | some p0 =>
    dsimp only
    apply updatePlayer_good _ _ _ hGood
    intro p _
    exact createSnake_right_good _ (getSafeSpawnPosition_inGrid _ o _ hO)

theorem not_mem_of_hitsSnapshot_false
    (snapshot : List (PlayerId × List Point)) (x : PlayerId)
    (body : List Point) (nh : Point)
    (hs : hitsSnapshot snapshot nh = false)
    (hb : snapLookup snapshot x = some body) : nh ∉ body := by
  unfold hitsSnapshot at hs
  rw [List.any_eq_false] at hs
  unfold snapLookup at hb
  cases hf : snapshot.find? (fun e => e.1 == x) with
  | none => rw [hf] at hb; exact absurd hb (by simp)
  | some e =>
    rw [hf] at hb
    have hmem : e ∈ snapshot := List.mem_of_find?_eq_some hf
    have he2 : e.2 = body := by simpa using hb
    intro hnh
    apply hs e hmem
    rw [List.any_eq_true]
    exact ⟨nh, he2 ▸ hnh, pointsEqual_iff.mpr rfl⟩

theorem goodBody_grow (body : List Point) (nh : Point)
    (hb : goodBody body) (hin : inGrid nh) (hnm : nh ∉ body) :
    goodBody (nh :: body) := by
  obtain ⟨hl, -, hnd, hoff⟩ := hb
  refine ⟨?_, hin, List.nodup_cons.mpr ⟨hnm, hnd⟩, ?_⟩
  · simp only [List.length_cons]
    omega
  · rw [List.filter_cons, wallHit_false_iff.mpr hin]
    simp only [Bool.false_eq_true, if_false]
    exact hoff

theorem goodBody_move (body : List Point) (nh : Point)
    (hb : goodBody body) (hin : inGrid nh) (hnm : nh ∉ body) :
    goodBody (nh :: body.dropLast) := by
  obtain ⟨hl, -, hnd, hoff⟩ := hb
  refine ⟨?_, hin, ?_, ?_⟩
  · simp only [List.length_cons, List.length_dropLast]
    omega
  · refine List.nodup_cons.mpr
      ⟨?_, List.Nodup.sublist (List.dropLast_sublist body) hnd⟩
    intro hmem
    exact hnm ((List.dropLast_sublist body).subset hmem)
  · rw [List.filter_cons, wallHit_false_iff.mpr hin]
    simp only [Bool.false_eq_true, if_false]
    calc (body.dropLast.filter (fun p => wallHit p)).length
        ≤ (body.filter (fun p => wallHit p)).length :=
          (((List.dropLast_sublist body).filter _)).length_le
      _ ≤ INITIAL_SNAKE_LENGTH - 1 := hoff

theorem findH2H_mem (entries : List (PlayerId × Point)) (id : PlayerId)
    (nh : Point) (v : PlayerId) (h : findH2H entries id nh = some v) :
    ∃ e ∈ entries, e.1 = v := by
  unfold findH2H at h
  cases hf : entries.find? (fun e => e.1 != id && pointsEqual e.2 nh) with
  | none => rw [hf] at h; exact absurd h (by simp)
  | some e =>
    rw [hf] at h
    exact ⟨e, List.mem_of_find?_eq_some hf, by simpa using h⟩

/-- One player-processing step of the tick preserves the body invariant,
the snapshot agreement for the still-unprocessed players, and the fact
that recorded head positions belong to already-processed players. -/
theorem processPlayer_step_good
    (snapshot : List (PlayerId × List Point)) (o : Oracle)
    (hO : ∀ n, inGrid (o.pos n)) (st : TickState) (id : PlayerId)
    (rest' : List PlayerId) (hid : id ∉ rest')
    (hGood : ∀ x p, lookupPlayer st.players x = some p → goodBody p.snake)
    (hAgree : ∀ x ∈ (id :: rest'),
      (lookupPlayer st.players x).map (·.snake) = snapLookup snapshot x)
    (hHP : ∀ e ∈ st.headPositions, e.1 ∉ (id :: rest')) :
    (∀ x p, lookupPlayer (processPlayer snapshot o st id).players x = some p →
      goodBody p.snake)
    ∧ (∀ x ∈ rest',
        (lookupPlayer (processPlayer snapshot o st id).players x).map
          (·.snake) = snapLookup snapshot x)
    ∧ (∀ e ∈ (processPlayer snapshot o st id).headPositions,
        e.1 ∉ rest') := by
  cases hlook : lookupPlayer st.players id with
  | none =>
    have hP : processPlayer snapshot o st id = st := by
      unfold processPlayer
      rw [hlook]
    rw [hP]
    exact ⟨hGood,
      fun x hx => hAgree x (List.mem_cons_of_mem _ hx),
      fun e he hc => hHP e he (List.mem_cons_of_mem _ hc)⟩
  | some player =>
    have hGood1 : ∀ x p,
        lookupPlayer (dirUpdate st id player).players x = some p →
        goodBody p.snake := by
      show ∀ x p, lookupPlayer (updatePlayer st.players id (fun q =>
          { q with
              direction := effectiveDirection player
              directionQueue := q.directionQueue.tail })) x = some p →
        goodBody p.snake
      apply updatePlayer_good _ _ _ hGood
      intro p hp
      exact hGood id p hp
    have hA1 : ∀ x, (lookupPlayer (dirUpdate st id player).players x).map
        (·.snake) = (lookupPlayer st.players x).map (·.snake) := by
      intro x
      show (lookupPlayer (updatePlayer st.players id (fun q =>
          { q with
              direction := effectiveDirection player
              directionQueue := q.directionQueue.tail })) x).map (·.snake) =
        (lookupPlayer st.players x).map (·.snake)
      exact updatePlayer_headPos_irrelevant st.players id (fun q =>
        { q with
            direction := effectiveDirection player
            directionQueue := q.directionQueue.tail }) (fun q => rfl) x
    have hl1 : lookupPlayer (dirUpdate st id player).players id =
        some { player with
          direction := effectiveDirection player
          directionQueue := player.directionQueue.tail } := by
      show lookupPlayer (updatePlayer st.players id (fun q =>
          { q with
              direction := effectiveDirection player
              directionQueue := q.directionQueue.tail })) id = _
      rw [lookupPlayer_updatePlayer_self, hlook]
      rfl
    by_cases hwall : wallHit (newHeadOf player) = true
    · -- wall collision: self-respawn only
      have hP : processPlayer snapshot o st id =
          respawnPlayer o (dirUpdate st id player) id := by
        unfold processPlayer
        rw [hlook]
        dsimp only
        rw [if_pos hwall]
      rw [hP]
      refine ⟨respawnPlayer_good o _ id hO hGood1, ?_, ?_⟩
      · intro x hx
        have hxid : x ≠ id := fun hc => hid (hc ▸ hx)
        rw [respawnPlayer_lookup_other o _ id x hxid, hA1]
        exact hAgree x (List.mem_cons_of_mem _ hx)
      · rw [respawnPlayer_headPositions]
        exact fun e he hc => hHP e he (List.mem_cons_of_mem _ hc)
    · have hwf : wallHit (newHeadOf player) = false := by
        revert hwall; cases wallHit (newHeadOf player) <;> simp
      have hin : inGrid (newHeadOf player) := wallHit_false_iff.mp hwf
      cases hv : findH2H st.headPositions id (newHeadOf player) with
      | some v =>
        -- head-to-head: respawn the victim, then self
        obtain ⟨e, hemem, hev⟩ := findH2H_mem _ _ _ _ hv
        have hvnotin : v ∉ (id :: rest') := hev ▸ hHP e hemem
        have hvne : v ≠ id := fun hc => hvnotin (hc ▸ List.mem_cons_self _ _)
        have hvrest : v ∉ rest' := fun hc => hvnotin (List.mem_cons_of_mem _ hc)
        have hP : processPlayer snapshot o st id =
            respawnPlayer o (respawnPlayer o (dirUpdate st id player) v) id := by
          unfold processPlayer
          rw [hlook]
          dsimp only
          rw [if_neg (by simp [hwf])]
          rw [hv]
          dsimp only
          rw [if_pos (by simp)]
        rw [hP]
        have hGood2 : ∀ x p, lookupPlayer
            (respawnPlayer o (dirUpdate st id player) v).players x = some p →
            goodBody p.snake :=
          respawnPlayer_good o _ v hO hGood1
        refine ⟨respawnPlayer_good o _ id hO hGood2, ?_, ?_⟩
        · intro x hx
          have hxid : x ≠ id := fun hc => hid (hc ▸ hx)
          have hxv : x ≠ v := fun hc => hvrest (hc ▸ hx)
          rw [respawnPlayer_lookup_other o _ id x hxid,
            respawnPlayer_lookup_other o _ v x hxv, hA1]
          exact hAgree x (List.mem_cons_of_mem _ hx)
        · rw [respawnPlayer_headPositions, respawnPlayer_headPositions]
          exact fun e2 he2 hc => hHP e2 he2 (List.mem_cons_of_mem _ hc)
      | none =>
        by_cases hsnap : hitsSnapshot snapshot (newHeadOf player) = true
        · -- body collision: self-respawn only
          have hP : processPlayer snapshot o st id =
              respawnPlayer o (dirUpdate st id player) id := by
            unfold processPlayer
            rw [hlook]
            dsimp only
            rw [if_neg (by simp [hwf])]
            rw [hv]
            dsimp only
            rw [if_pos (by simp [hsnap])]
          rw [hP]
          refine ⟨respawnPlayer_good o _ id hO hGood1, ?_, ?_⟩
          · intro x hx
            have hxid : x ≠ id := fun hc => hid (hc ▸ hx)
            rw [respawnPlayer_lookup_other o _ id x hxid, hA1]
            exact hAgree x (List.mem_cons_of_mem _ hx)
          · rw [respawnPlayer_headPositions]
            exact fun e he hc => hHP e he (List.mem_cons_of_mem _ hc)
        · -- no collision: move (with or without fruit)
          have hsnapF : hitsSnapshot snapshot (newHeadOf player) = false := by
            revert hsnap
            cases hitsSnapshot snapshot (newHeadOf player) <;> simp
          have hnm : newHeadOf player ∉ player.snake := by
            apply not_mem_of_hitsSnapshot_false snapshot id _ _ hsnapF
            rw [← hAgree id (List.mem_cons_self _ _), hlook]
            rfl
          have hpg : goodBody player.snake := hGood id player hlook
          have hHP' : ∀ e2 ∈ st.headPositions ++ [(id, newHeadOf player)],
              e2.1 ∉ rest' := by
            intro e2 he2
            rcases List.mem_append.mp he2 with h2 | h2
            · exact fun hc => hHP e2 h2 (List.mem_cons_of_mem _ hc)
            · have : e2 = (id, newHeadOf player) := by simpa using h2
              rw [this]
              exact hid
          cases hidx : st.fruits.findIdx?
              (fun fruit => pointsEqual fruit (newHeadOf player)) with
          | some i =>
            have hgrow : ∀ x p, lookupPlayer
                (updatePlayer (dirUpdate st id player).players id (fun q =>
                  { q with
                      score := q.score + 1
                      snake := newHeadOf player :: q.snake })) x = some p →
                goodBody p.snake := by
              apply updatePlayer_good _ _ _ hGood1
              intro p hp
              rw [hl1] at hp
              have hpe : ({ player with
                  direction := effectiveDirection player
                  directionQueue := player.directionQueue.tail } : Player)
                  = p := by simpa using hp
              rw [← hpe]
              exact goodBody_grow player.snake (newHeadOf player) hpg hin hnm
            have hPp : (processPlayer snapshot o st id).players =
                updatePlayer (dirUpdate st id player).players id (fun q =>
                  { q with
                      score := q.score + 1
                      snake := newHeadOf player :: q.snake })
                ∧ (processPlayer snapshot o st id).headPositions =
                  st.headPositions ++ [(id, newHeadOf player)] := by
              unfold processPlayer
              rw [hlook]
              dsimp only
              rw [if_neg (by simp [hwf])]
              rw [hv]
              dsimp only
              rw [if_neg (by simp [hsnapF])]
              rw [hidx]
              dsimp only
              by_cases hcap : INITIAL_FRUIT_COUNT * 3 ≤
                  (st.fruits.eraseIdx i).length
              · rw [if_pos hcap]
                exact ⟨rfl, rfl⟩
              · rw [if_neg hcap]
                exact ⟨rfl, rfl⟩
            rw [hPp.1]
            refine ⟨hgrow, ?_, ?_⟩
            · intro x hx
              have hxid : x ≠ id := fun hc => hid (hc ▸ hx)
              rw [lookupPlayer_updatePlayer_other _ _ _ _ hxid, hA1]
              exact hAgree x (List.mem_cons_of_mem _ hx)
            · rw [hPp.2]
              exact hHP'
          | none =>
            have hmove : ∀ x p, lookupPlayer
                (updatePlayer (dirUpdate st id player).players id (fun q =>
                  { q with
                      snake := newHeadOf player :: q.snake.dropLast })) x =
                some p → goodBody p.snake := by
              apply updatePlayer_good _ _ _ hGood1
              intro p hp
              rw [hl1] at hp
              have hpe : ({ player with
                  direction := effectiveDirection player
                  directionQueue := player.directionQueue.tail } : Player)
                  = p := by simpa using hp
              rw [← hpe]
              exact goodBody_move player.snake (newHeadOf player) hpg hin hnm
            have hPp : (processPlayer snapshot o st id).players =
                updatePlayer (dirUpdate st id player).players id (fun q =>
                  { q with
                      snake := newHeadOf player :: q.snake.dropLast })
                ∧ (processPlayer snapshot o st id).headPositions =
                  st.headPositions ++ [(id, newHeadOf player)] := by
              unfold processPlayer
              rw [hlook]
              dsimp only
              rw [if_neg (by simp [hwf])]
              rw [hv]
              dsimp only
              rw [if_neg (by simp [hsnapF])]
              rw [hidx]
              exact ⟨rfl, rfl⟩
            rw [hPp.1]
            refine ⟨hmove, ?_, ?_⟩
            · intro x hx
              have hxid : x ≠ id := fun hc => hid (hc ▸ hx)
              rw [lookupPlayer_updatePlayer_other _ _ _ _ hxid, hA1]
              exact hAgree x (List.mem_cons_of_mem _ hx)
            · rw [hPp.2]
              exact hHP'

theorem aiStep_keys (fruits : List Point) (ps : List (PlayerId × Player))
    (id : PlayerId) :
    (aiStep fruits ps id).map (·.1) = ps.map (·.1) := by
  unfold aiStep
  cases lookupPlayer ps id with
  | none => rfl
  | some p =>
    dsimp only
    by_cases hai : p.isAI = true
    · rw [if_pos hai]
      exact updatePlayer_keys _ _ _
    · rw [if_neg hai]

theorem aiStep_snakes (fruits : List Point) (ps : List (PlayerId × Player))
    (id x : PlayerId) :
    (lookupPlayer (aiStep fruits ps id) x).map (·.snake) =
      (lookupPlayer ps x).map (·.snake) := by
  unfold aiStep
  cases lookupPlayer ps id with
  | none => rfl
  | some p =>
    dsimp only
    by_cases hai : p.isAI = true
    · rw [if_pos hai]
      exact updatePlayer_headPos_irrelevant ps id (fun q =>
        { q with directionQueue := [calculateAIMove ps fruits id] })
        (fun q => rfl) x
    · rw [if_neg hai]

theorem aiFold_keys (fruits : List Point) :
    ∀ (ids : List PlayerId) (ps : List (PlayerId × Player)),
    ((ids.foldl (aiStep fruits) ps).map (·.1)) = ps.map (·.1) := by
  intro ids
  induction ids with
  | nil => intro ps; rfl
  | cons id rest ih =>
    intro ps
    rw [List.foldl_cons, ih, aiStep_keys]

theorem aiFold_snakes (fruits : List Point) :
    ∀ (ids : List PlayerId) (ps : List (PlayerId × Player)) (x : PlayerId),
    (lookupPlayer (ids.foldl (aiStep fruits) ps) x).map (·.snake) =
      (lookupPlayer ps x).map (·.snake) := by
  intro ids
  induction ids with
  | nil => intro ps x; rfl
  | cons id rest ih =>
    intro ps x
    rw [List.foldl_cons, ih, aiStep_snakes]

theorem snapLookup_map (ps : List (PlayerId × Player)) (x : PlayerId) :
    snapLookup (ps.map (fun pr => (pr.1, pr.2.snake))) x =
      (lookupPlayer ps x).map (·.snake) := by
  unfold snapLookup lookupPlayer
  rw [List.find?_map]
  have hp : ((fun e : PlayerId × List Point => e.1 == x) ∘
      (fun pr : PlayerId × Player => (pr.1, pr.2.snake))) =
      (fun pr : PlayerId × Player => pr.1 == x) := by
    funext pr
    rfl
  rw [hp]
  cases ps.find? (fun pr => pr.1 == x) <;> rfl

theorem foldl_processPlayer_good
    (snapshot : List (PlayerId × List Point)) (o : Oracle)
    (hO : ∀ n, inGrid (o.pos n)) :
    ∀ (rest : List PlayerId) (st : TickState),
    rest.Nodup →
    (∀ x p, lookupPlayer st.players x = some p → goodBody p.snake) →
    (∀ x ∈ rest,
      (lookupPlayer st.players x).map (·.snake) = snapLookup snapshot x) →
    (∀ e ∈ st.headPositions, e.1 ∉ rest) →
    ∀ x p, lookupPlayer
      ((rest.foldl (processPlayer snapshot o) st)).players x = some p →
      goodBody p.snake := by
  intro rest
  induction rest with
  | nil =>
    intro st _ hGood _ _
    exact hGood
  | cons id rest' ih =>
    intro st hnd hGood hAgree hHP
    rw [List.foldl_cons]
    obtain ⟨hG', hA', hH'⟩ := processPlayer_step_good snapshot o hO st id
      rest' (List.nodup_cons.mp hnd).1 hGood hAgree hHP
    exact ih (processPlayer snapshot o st id) (List.nodup_cons.mp hnd).2
      hG' hA' hH'

/-- C4 amended: assuming the inductive body invariant (length at least the
initial length, head in the grid, pairwise-distinct cells, at most
`INITIAL_SNAKE_LENGTH - 1` off-grid cells) holds for every player before
the tick, and the oracle produces in-grid spawn positions, then after a
completed tick every player still satisfies the invariant — in particular
the head lies in `[0, width) × [0, height)` and the length is at least
`INITIAL_SNAKE_LENGTH` — and the length is bounded by
`width × height + (INITIAL_SNAKE_LENGTH - 1)` (not by `width × height`,
which the code does not guarantee). -/
theorem gameLoopTick_preserves_bounds :
    ∀ (s : ServerState) (o : Oracle) (k c : Nat),
    (s.players.map (·.1)).Nodup →
    (∀ x p, lookupPlayer s.players x = some p → goodBody p.snake) →
    (∀ n, inGrid (o.pos n)) →
    ∀ x p, lookupPlayer ((gameLoopTick s o k c).1).players x = some p →
      goodBody p.snake
      ∧ p.snake.length ≤ GRID_CELLS + (INITIAL_SNAKE_LENGTH - 1) := by
  intro s o k c hnd hGood hO x p hx
  unfold gameLoopTick at hx
  dsimp only at hx
  have hkeys : (updateAIDirections s.players s.fruits).map (·.1) =
      s.players.map (·.1) :=
    aiFold_keys s.fruits _ s.players
  have hsnakes : ∀ y,
      (lookupPlayer (updateAIDirections s.players s.fruits) y).map
        (·.snake) = (lookupPlayer s.players y).map (·.snake) :=
    fun y => aiFold_snakes s.fruits _ s.players y
  have hGood0 : ∀ y q,
      lookupPlayer (updateAIDirections s.players s.fruits) y = some q →
      goodBody q.snake := by
    intro y q hy
    have hs := hsnakes y
    rw [hy] at hs
    cases hsy : lookupPlayer s.players y with
    | none => rw [hsy] at hs; exact absurd hs (by simp)
    | some q0 =>
      rw [hsy] at hs
      have hq : q.snake = q0.snake := by simpa using hs
      rw [hq]
      exact hGood y q0 hsy
  have hAgree0 : ∀ y ∈ ((updateAIDirections s.players s.fruits).map (·.1)),
      (lookupPlayer (updateAIDirections s.players s.fruits) y).map
        (·.snake) =
      snapLookup ((updateAIDirections s.players s.fruits).map
        (fun pr => (pr.1, pr.2.snake))) y := by
    intro y _
    rw [snapLookup_map]
  have hg := foldl_processPlayer_good
    ((updateAIDirections s.players s.fruits).map
      (fun pr => (pr.1, pr.2.snake))) o hO
    ((updateAIDirections s.players s.fruits).map (·.1))
    { players := updateAIDirections s.players s.fruits
      fruits := s.fruits
      pendingSpawns := s.pendingSpawns
      headPositions := []
      posIdx := k
      coinIdx := c }
    (by rw [hkeys]; exact hnd) hGood0 hAgree0
    (by intro e he; exact absurd he (List.not_mem_nil e))
    x p hx
  exact ⟨hg, goodBody_length_le _ hg⟩

/-- A snake occupying `GRID_CELLS` cells (with repeats), its head at
`(1,0)`, about to eat the fruit at `(2,0)`. -/
def bigBody : List Point := ⟨1, 0⟩ :: List.replicate 5183 ⟨0, 0⟩

/-- The player owning `bigBody`. -/
def pBig : Player :=
  { snake := bigBody
    direction := Direction.RIGHT
    score := 0
    directionQueue := []
    isAI := false }

/-- Server state used to refute the `width × height` length bound. -/
def sBig : ServerState :=
  { players := [("big", pBig)]
    fruits := [⟨2, 0⟩]
    pendingSpawns := 0
    loopRunning := true }

theorem any_pe_replicate (n : Nat) (a b : Point)
    (h : pointsEqual a b = false) :
    ((List.replicate n a).any (fun seg => pointsEqual seg b)) = false := by
  induction n with
  | zero => rfl
  | succ m ih =>
    rw [List.replicate_succ, List.any_cons, h, ih]
    rfl

theorem hitsSnapshot_big :
    hitsSnapshot [("big", bigBody)] (⟨2, 0⟩ : Point) = false := by
  unfold hitsSnapshot bigBody
  rw [List.any_cons, List.any_nil, List.any_cons,
    any_pe_replicate 5183 ⟨0, 0⟩ ⟨2, 0⟩ (by decide)]
  decide

/-- Counterexample for C4: a state satisfying every bound the claim
asserts (head in grid, length ≥ initial length, length ≤ width × height
for every player) whose very next tick produces a snake of length
`width × height + 1` — the code never enforces the `width × height`
upper bound. -/
theorem snake_length_bound_counterexample :
    (∀ pr ∈ sBig.players,
      pr.2.snake.length ≤ GRID_CELLS
      ∧ INITIAL_SNAKE_LENGTH ≤ pr.2.snake.length
      ∧ inGrid (pr.2.snake.headD ⟨0, 0⟩))
    ∧ (∃ pr ∈ ((gameLoopTick sBig oW 0 0).1).players,
        GRID_CELLS < pr.2.snake.length) := by
  have hbiglen : bigBody.length = 5184 := by
    show ((⟨1, 0⟩ : Point) :: List.replicate 5183 ⟨0, 0⟩).length = 5184
    rw [List.length_cons, List.length_replicate]
  constructor
  · intro pr hpr
    have hpr2 : pr = ("big", pBig) := by
      rw [show sBig.players = [("big", pBig)] from rfl] at hpr
      exact List.mem_singleton.mp hpr
    subst hpr2
    refine ⟨?_, ?_, ?_⟩
    · show bigBody.length ≤ GRID_CELLS
      rw [hbiglen]
      norm_num [GRID_CELLS]
    · show INITIAL_SNAKE_LENGTH ≤ bigBody.length
      rw [hbiglen]
      norm_num [INITIAL_SNAKE_LENGTH]
    · show inGrid (bigBody.headD ⟨0, 0⟩)
      decide
  · have hP : ((gameLoopTick sBig oW 0 0).1).players =
        [("big",
          { snake := ⟨2, 0⟩ :: bigBody
            direction := Direction.RIGHT
            score := 1
            directionQueue := []
            isAI := false })] := by
      unfold gameLoopTick
      dsimp only
      rw [show updateAIDirections sBig.players sBig.fruits = sBig.players
        from rfl]
      rw [show sBig.players.map
        (fun pr => (pr.1, pr.2.snake)) = [("big", bigBody)] from rfl]
      rw [show sBig.players.map
        (fun pr : PlayerId × Player => pr.1) = ["big"] from rfl]
      rw [List.foldl_cons, List.foldl_nil]
      unfold processPlayer
      rw [show lookupPlayer sBig.players "big" = some pBig from rfl]
      dsimp only
      rw [show newHeadOf pBig = (⟨2, 0⟩ : Point) from rfl]
      rw [if_neg (by decide : ¬ (wallHit (⟨2, 0⟩ : Point) = true))]
      rw [show findH2H [] "big" (⟨2, 0⟩ : Point) = none from rfl]
      dsimp only
      rw [if_neg (by rw [hitsSnapshot_big]; decide)]
      rw [show sBig.fruits = [(⟨2, 0⟩ : Point)] from rfl]
      rw [show List.findIdx?
        (fun fruit => pointsEqual fruit (⟨2, 0⟩ : Point))
        ([(⟨2, 0⟩ : Point)]) = some 0 from rfl]
      dsimp only
      rw [if_neg (by decide :
        ¬ (INITIAL_FRUIT_COUNT * 3 ≤
            (([(⟨2, 0⟩ : Point)]).eraseIdx 0).length))]
      rfl
    rw [hP]
    refine ⟨_, List.mem_singleton.mpr rfl, ?_⟩
    show GRID_CELLS < ((⟨2, 0⟩ : Point) :: bigBody).length
    rw [List.length_cons, hbiglen]
    norm_num [GRID_CELLS]

/-- Witness oracle with in-grid spawn positions. -/
def oG : Oracle :=
  { pos := fun _ => ⟨7, 7⟩
    coin := fun _ => true
    freshId := fun n => toString n }

/-- The expected post-tick player for the C4 witness. -/
def pRes : Player :=
  { snake := [⟨6, 5⟩, ⟨5, 5⟩, ⟨4, 5⟩]
    direction := Direction.RIGHT
    score := 0
    directionQueue := []
    isAI := false }

/-- Witness for the amended C4 at a concrete state. -/
theorem gameLoopTick_preserves_bounds_witness :
    goodBody pRes.snake
    ∧ pRes.snake.length ≤ GRID_CELLS + (INITIAL_SNAKE_LENGTH - 1) :=
  gameLoopTick_preserves_bounds sW oG 0 0 (by decide)
    (by
      intro x p h
      by_cases hx : x = "a"
      · subst hx
        rw [show lookupPlayer sW.players "a" = some pW from rfl] at h
        have hpw : pW = p := by simpa using h
        rw [← hpw]
        decide
      · have hnone : lookupPlayer sW.players x = none := by
          unfold lookupPlayer
          rw [List.find?_eq_none.mpr ?_]
          · rfl
          · intro pr hpr
            have hpr2 : pr = ("a", pW) := List.mem_singleton.mp hpr
            rw [hpr2]
            simp only [beq_iff_eq]
            exact fun hc => hx hc.symm
        rw [hnone] at h
        exact absurd h (by simp))
    (fun n => show inGrid (⟨7, 7⟩ : Point) by decide) "a" pRes (by decide)

end Snake